import Mathlib

/-!
# Verification of the rover-booking-hub intake pipeline

Shallow embedding of the natural-language intake and deduplication pipeline of
the `rover-booking-hub` repository:

* `src/src/services/intake.js` (final revision): keyword matching
  (`findKeywords`), the temporal expression resolver (`parseSegments` with its
  helpers `yearInfer`, `scanDateTokens`, `nthWeekdayOfMonth`, `usHolidays`, …),
  the service classifier (`classifyService`), and the batch reparse job
  (`reparseAll`).
* `src/src/services/utils/eid.js` (`buildEID`), the idempotency key builder.
* `src/src/routes/webhooks.js` (final revision): the `POST /sms-forward`
  orchestrator, modelled as a pure state transformer over an explicit record
  store (`DB`).

Modelling conventions:

* JavaScript `Date` values are milliseconds since the Unix epoch (`Int`).
  The deployment-local timezone is modelled as UTC with no DST, so
  `new Date(y, m, d)` is day arithmetic on a proleptic Gregorian calendar
  (the civil-date conversions below are the standard Hinnant algorithms,
  which agree with ECMAScript `MakeDay`, including its normalization of
  out-of-range day and month values).
* JavaScript regular-expression matching is embedded with a
  list-of-successes parser combinator library (`P`): alternation order,
  greedy and lazy quantifiers, and word boundaries are encoded explicitly,
  mirroring each source regex.
* Strings are matched over their character lists; the inputs exercised are
  ASCII, where JS UTF-16 code-unit indexing and `Char` indexing agree.
-/

set_option maxRecDepth 4000

/-! ## JS Date arithmetic (ms since epoch, local = UTC) -/

/-- Days from civil date (Hinnant `days_from_civil`, month 1..12).
Linear in `d`, so out-of-range day values roll over exactly as ECMAScript
`MakeDay` does. -/
def daysFromCivil (y m d : Int) : Int :=
  let y1 := if m ≤ 2 then y - 1 else y
  let era := y1.fdiv 400
  let yoe := y1 - era * 400
  let mp := (m + 9) % 12
  let doy := (153 * mp + 2).fdiv 5 + d - 1
  let doe := yoe * 365 + yoe.fdiv 4 - yoe.fdiv 100 + doy
  era * 146097 + doe - 719468

/-- Civil date from a day number (Hinnant `civil_from_days`): (year, month 1..12, day). -/
def civilFromDays (z0 : Int) : Int × Int × Int :=
  let z := z0 + 719468
  let era := z.fdiv 146097
  let doe := z - era * 146097
  let yoe := (doe - doe.fdiv 1460 + doe.fdiv 36524 - doe.fdiv 146096).fdiv 365
  let y := yoe + era * 400
  let doy := doe - (365 * yoe + yoe.fdiv 4 - yoe.fdiv 100)
  let mp := (5 * doy + 2).fdiv 153
  let d := doy - (153 * mp + 2).fdiv 5 + 1
  let m := mp + (if mp < 10 then 3 else -9)
  (if m ≤ 2 then y + 1 else y, m, d)

/-- ECMAScript `MakeDay(y, m, d)` with 0-based month `m`: months and days out of
range are normalized (e.g. `new Date(2025, 1, 30)` is 2025-03-02). -/
def jsMakeDay (y m d : Int) : Int :=
  let ym := y + m.fdiv 12
  let mn := m.emod 12
  daysFromCivil ym (mn + 1) d

def msPerDay : Int := 86400000

/-- `new Date(y, m, d).setHours(h, min, 0, 0)` as ms since epoch (0-based month). -/
def jsDateMs (y m d h min : Int) : Int :=
  jsMakeDay y m d * msPerDay + h * 3600000 + min * 60000

/-- Day number of an instant (floor). -/
def epochDay (ms : Int) : Int := ms.fdiv msPerDay

/-- Milliseconds into the local day. -/
def timeOfDayMs (ms : Int) : Int := ms.emod msPerDay

/-- `Date.prototype.getFullYear`. -/
def getFullYear (ms : Int) : Int := (civilFromDays (epochDay ms)).1

/-- `Date.prototype.getMonth` (0-based). -/
def getMonth0 (ms : Int) : Int := (civilFromDays (epochDay ms)).2.1 - 1

/-- `Date.prototype.getDate` (day of month, 1-based). -/
def getDate (ms : Int) : Int := (civilFromDays (epochDay ms)).2.2

/-- `Date.prototype.getDay` (0 = Sunday). 1970-01-01 was a Thursday (4). -/
def getDay (ms : Int) : Int := (epochDay ms + 4).emod 7

/-- `d.setHours(h, min, 0, 0)`: same local day, new time of day. -/
def jsSetHours (ms h min : Int) : Int := epochDay ms * msPerDay + h * 3600000 + min * 60000

/-- `d.setDate(d.getDate() + n)` (the only `setDate` uses in the source add a
day count): in a timezone without DST this adds exactly `n` days. -/
def jsAddDays (ms n : Int) : Int := ms + n * msPerDay

/-- `d.setMonth(d.getMonth() + 1)` keeping day-of-month and time of day; the
day count is renormalized by `MakeDay` (e.g. Jan 31 + 1 month = Mar 3). -/
def jsAddMonths1 (ms : Int) : Int :=
  let c := civilFromDays (epochDay ms)
  jsMakeDay c.1 (c.2.1 - 1 + 1) c.2.2 * msPerDay + timeOfDayMs ms

/-- `Math.abs(a - b)` on ms values. -/
def jsAbs (x : Int) : Int := if x < 0 then -x else x

/-- `Math.round(n / d)` for an integer ms difference `n` and positive divisor
`d`: floor(n/d + 1/2). -/
def jsRoundDiv (n d : Int) : Int := (2 * n + d).fdiv (2 * d)

/-- Zero-padded decimal rendering of a nonnegative number, width 2. -/
def pad2 (n : Int) : String :=
  if n < 10 then "0" ++ toString n else toString n

/-- Zero-padded decimal rendering, width 4 (years of interest are 4-digit). -/
def pad4 (n : Int) : String :=
  if n < 10 then "000" ++ toString n
  else if n < 100 then "00" ++ toString n
  else if n < 1000 then "0" ++ toString n
  else toString n

/-- `Date.prototype.toISOString` (UTC; our local timezone is UTC). -/
def msToISO (ms : Int) : String :=
  let c := civilFromDays (epochDay ms)
  let t := timeOfDayMs ms
  let hh := t.fdiv 3600000
  let mm := (t.emod 3600000).fdiv 60000
  let ss := (t.emod 60000).fdiv 1000
  let s3 := t.emod 1000
  let ms3 := if s3 < 10 then "00" ++ toString s3
             else if s3 < 100 then "0" ++ toString s3 else toString s3
  pad4 c.1 ++ "-" ++ pad2 c.2.1 ++ "-" ++ pad2 c.2.2 ++ "T" ++
    pad2 hh ++ ":" ++ pad2 mm ++ ":" ++ pad2 ss ++ "." ++ ms3 ++ "Z"

/-! ## Character utilities (ASCII, mirroring JS regex character classes) -/

def asciiLower (c : Char) : Char :=
  if 65 ≤ c.toNat && c.toNat ≤ 90 then Char.ofNat (c.toNat + 32) else c

/-- `String.prototype.toLowerCase` (inputs exercised are ASCII). -/
def lowerStr (s : String) : String := String.mk (s.toList.map asciiLower)

/-- JS regex `\w` = `[A-Za-z0-9_]` (ASCII only). -/
def isWordChar (c : Char) : Bool :=
  (97 ≤ c.toNat && c.toNat ≤ 122) || (65 ≤ c.toNat && c.toNat ≤ 90) ||
  (48 ≤ c.toNat && c.toNat ≤ 57) || c == '_'

/-- JS regex `\s` (the whitespace forms occurring in SMS text). -/
def isWS (c : Char) : Bool := c == ' ' || c == '\t' || c == '\n' || c == '\r'

def isDigitC (c : Char) : Bool := 48 ≤ c.toNat && c.toNat ≤ 57

/-! ## A list-of-successes matcher for the source regexes

Each JS regex in the source is embedded as a parser returning every way it can
match a prefix of the input, in the priority order of the regex engine
(alternatives in source order, greedy quantifiers longest first, lazy
quantifiers shortest first).  Taking the head of the result list at the
leftmost matching position reproduces JS `String.match` / `RegExp.exec`. -/

structure P (α : Type) : Type where
  run : List Char → List (α × List Char)

instance : Monad P where
  pure a := ⟨fun cs => [(a, cs)]⟩
  bind p f := ⟨fun cs => ((p.run cs).map (fun r => (f r.1).run r.2)).flatten⟩

def pFail {α : Type} : P α := ⟨fun _ => []⟩

/-- Ordered alternation (regex `|`). -/
def pAlt {α : Type} (ps : List (P α)) : P α := ⟨fun cs => (ps.map (fun p => p.run cs)).flatten⟩

/-- One character satisfying a class. -/
def pChar (f : Char → Bool) : P Char := ⟨fun cs =>
  match cs with
  | [] => []
  | c :: rest => if f c then [(c, rest)] else []⟩

def litMatchCI : List Char → List Char → Option (List Char)
  | [], cs => some cs
  | _ :: _, [] => none
  | w :: ws, c :: cs => if asciiLower c == asciiLower w then litMatchCI ws cs else none

def litMatchCS : List Char → List Char → Option (List Char)
  | [], cs => some cs
  | _ :: _, [] => none
  | w :: ws, c :: cs => if c == w then litMatchCS ws cs else none

/-- Case-insensitive literal (regexes compiled with the `i` flag). -/
def pLitCI (w : String) : P Unit := ⟨fun cs =>
  match litMatchCI w.toList cs with
  | some rest => [((), rest)]
  | none => []⟩

/-- Case-sensitive literal. -/
def pLitCS (w : String) : P Unit := ⟨fun cs =>
  match litMatchCS w.toList cs with
  | some rest => [((), rest)]
  | none => []⟩

def runLen (f : Char → Bool) : List Char → Nat
  | [] => 0
  | c :: cs => if f c then runLen f cs + 1 else 0

/-- Greedy `f*`: longest first; value is the count consumed. -/
def pStarG (f : Char → Bool) : P Nat := ⟨fun cs =>
  let r := runLen f cs
  (List.range (r + 1)).map (fun i => (r - i, cs.drop (r - i)))⟩

/-- Greedy `f+`. -/
def pPlusG (f : Char → Bool) : P Nat := ⟨fun cs =>
  let r := runLen f cs
  (List.range r).map (fun i => (r - i, cs.drop (r - i)))⟩

/-- Greedy bounded `f{lo,hi}`. -/
def pRepG (f : Char → Bool) (lo hi : Nat) : P Nat := ⟨fun cs =>
  let r := min (runLen f cs) hi
  if r < lo then []
  else (List.range (r + 1 - lo)).map (fun i => (r - i, cs.drop (r - i)))⟩

/-- Lazy bounded `f{lo,hi}?`: shortest first. -/
def pRepL (f : Char → Bool) (lo hi : Nat) : P Nat := ⟨fun cs =>
  let r := min (runLen f cs) hi
  if r < lo then []
  else (List.range (r + 1 - lo)).map (fun i => (lo + i, cs.drop (lo + i)))⟩

def digitsVal (cs : List Char) (k : Nat) : Nat :=
  (cs.take k).foldl (fun acc c => acc * 10 + (c.toNat - 48)) 0

/-- Greedy `\d{lo,hi}` returning the numeric value of the digits consumed. -/
def pDigits (lo hi : Nat) : P Nat := ⟨fun cs =>
  let r := min (runLen isDigitC cs) hi
  if r < lo then []
  else (List.range (r + 1 - lo)).map (fun i =>
    (digitsVal cs (r - i), cs.drop (r - i)))⟩

/-- Greedy optional group `(...)?`: with-the-group first. -/
def pOptG {α : Type} (p : P α) : P (Option α) := ⟨fun cs =>
  ((p.run cs).map (fun r => (some r.1, r.2))) ++ [(none, cs)]⟩

/-- Trailing `\b` after a word character: the next char must not be a word
character (every source pattern ending in `\b` ends its match on a word
character, for which this is exactly the boundary condition). -/
def pEndWB : P Unit := ⟨fun cs =>
  match cs with
  | [] => [((), [])]
  | c :: _ => if isWordChar c then [] else [((), cs)]⟩

def pWSStar : P Nat := pStarG isWS
def pWSPlus : P Nat := pPlusG isWS

/-- All positions of a character list: (index, previous char, suffix). -/
def positionsAux : Nat → Option Char → List Char → List (Nat × Option Char × List Char)
  | i, prev, [] => [(i, prev, [])]
  | i, prev, c :: cs => (i, prev, c :: cs) :: positionsAux (i + 1) (some c) cs

def positions (s : List Char) : List (Nat × Option Char × List Char) :=
  positionsAux 0 none s

def prevIsWord (prev : Option Char) : Bool :=
  match prev with
  | some c => isWordChar c
  | none => false

/-- First match of a pattern over all positions (JS `match` without `g`).
`wb` demands a word boundary before the match (used for patterns that start
with `\b` followed by a word character). Returns (index, value, length). -/
def firstMatch {α : Type} (wb : Bool) (p : P α) (s : List Char) : Option (Nat × α × Nat) :=
  (positions s).findSome? (fun pos =>
    if wb && prevIsWord pos.2.1 then none
    else match p.run pos.2.2 with
      | [] => none
      | (a, rest) :: _ => some (pos.1, a, pos.2.2.length - rest.length))

/-- Successive non-overlapping matches (JS `RegExp.exec` loop with the `g`
flag): scan left to right, resume after each match. -/
def allMatchesAux {α : Type} (wb : Bool) (p : P α) :
    Nat → Nat → Option Char → List Char → List (Nat × α × Nat)
  | 0, _, _, _ => []
  | fuel + 1, i, prev, cs =>
    match cs with
    | [] => []
    | c :: rest =>
      if wb && prevIsWord prev then allMatchesAux wb p fuel (i + 1) (some c) rest
      else match p.run cs with
        | (a, after) :: _ =>
          let len := cs.length - after.length
          if len == 0 then allMatchesAux wb p fuel (i + 1) (some c) rest
          else (i, a, len) :: allMatchesAux wb p fuel (i + len) ((cs.take len).getLast?) after
        | [] => allMatchesAux wb p fuel (i + 1) (some c) rest

def allMatches {α : Type} (wb : Bool) (p : P α) (s : List Char) : List (Nat × α × Nat) :=
  allMatchesAux wb p (s.length + 1) 0 none s

/-- JS `String.prototype.slice(a, b)` on characters. -/
def sliceChars (s : List Char) (a b : Nat) : List Char := (s.take b).drop a

/-- JS `String.prototype.includes`. -/
def containsSubstr (s sub : String) : Bool :=
  (positions s.toList).any (fun pos => (litMatchCS sub.toList pos.2.2).isSome)

/-- JS falsy-string coalescing `a || b`. -/
def jsOrS (a b : String) : String := if a = "" then b else a

/-- `a || b` where `a` is a nullable string. -/
def jsOrOS (a : Option String) (b : String) : String :=
  match a with
  | some s => if s = "" then b else s
  | none => b

/-! ## intake.js: keywords, months, year inference, holiday calculators -/

/-- The bilingual keyword vocabulary of `src/services/intake.js` (final
revision, including the seasonal/travel cues). -/
def KEYWORDS : List String :=
  ["book", "booking", "reserve", "reservation",
   "rover", "sitter", "sitting", "board", "boarding", "overnight", "stay",
   "doggy day care", "doggy daycare", "daycare", "day care",
   "drop in", "drop-in", "dropin", "drop off", "dropoff", "pick up", "pickup",
   "cuidar", "cuidado", "hospedaje", "hospedar", "guardería", "guarderia",
   "paseo", "pasear", "desde", "hasta", "dejar", "recoger",
   "thanksgiving", "christmas", "holiday", "travel"]

/-- Matcher for one keyword compiled as
`new RegExp('\\b' + k.replace(/\s+/g, '\\s+') + '\\b', 'i')`: internal
whitespace runs in the keyword match any whitespace run of the text.  The
maximal-munch treatment of `\s+` is exact because every keyword continues
with a non-whitespace character after a space. -/
def kwMatchAt : List Char → List Char → Option (List Char)
  | [], cs =>
    match cs with
    | [] => some []
    | c :: _ => if isWordChar c then none else some cs
  | [k], cs =>
    if isWS k then
      let n := runLen isWS cs
      if n == 0 then none else kwMatchAt [] (cs.drop n)
    else
      match cs with
      | [] => none
      | c :: cs1 => if asciiLower c == asciiLower k then kwMatchAt [] cs1 else none
  | k :: k2 :: ks2, cs =>
    if isWS k then
      if isWS k2 then kwMatchAt (k2 :: ks2) cs
      else
        let n := runLen isWS cs
        if n == 0 then none else kwMatchAt (k2 :: ks2) (cs.drop n)
    else
      match cs with
      | [] => none
      | c :: cs1 => if asciiLower c == asciiLower k then kwMatchAt (k2 :: ks2) cs1 else none

/-- `re.test(t)` for a keyword regex: some position with a word boundary
before it matches (every keyword starts with a word character). -/
def kwTest (k text : String) : Bool :=
  (positions text.toList).any (fun pos =>
    !prevIsWord pos.2.1 && (kwMatchAt k.toList pos.2.2).isSome)

/-- `findKeywords` (intake.js): each keyword is tested against the lowercased
text; hits are collected in vocabulary order (the `Set` dedup is a no-op on
the duplicate-free vocabulary). -/
def findKeywords (text : String) : List String :=
  KEYWORDS.filter (fun k => kwTest k (lowerStr text))

/-- JS coerces `null` to `0` where the source passes a possibly-`null` month
index into a `Date` constructor (`Number(null) = 0`). -/
def jsNum0 (x : Option Int) : Int :=
  match x with
  | some v => v
  | none => 0

/-- The candidate matches of `MONTH_RX` paired with `monoMonth` of the matched
text, in regex alternation order with greedy optional suffixes first.  Matched
texts that are in neither `EN_MONTHS` nor `ES_MONTHS` (e.g. full English month
names such as "march") make `monoMonth` return `null`, modelled as `none`. -/
def monthCandidates : List (String × Option Int) :=
  [("january", none), ("jan", some 0),
   ("february", none), ("feb", some 1),
   ("march", none), ("mar", some 2),
   ("april", none), ("apr", some 3),
   ("may", some 4),
   ("june", none), ("jun", some 5),
   ("july", none), ("jul", some 6),
   ("august", none), ("aug", some 7),
   ("sept", some 8), ("sep", some 8),
   ("september", none), ("sep", some 8),
   ("october", none), ("oct", some 9),
   ("november", none), ("nov", some 10),
   ("december", none), ("dec", some 11),
   ("enero", some 0), ("ene", some 0),
   ("febrero", some 1), ("feb", some 1),
   ("marzo", some 2), ("mar", some 2),
   ("abril", some 3), ("abr", some 3),
   ("mayo", some 4), ("may", some 4),
   ("junio", some 5), ("jun", some 5),
   ("julio", some 6), ("jul", some 6),
   ("agosto", some 7), ("ago", some 7),
   ("septiembre", some 8), ("sepiembre", none),
   ("octubre", some 9), ("oct", some 9),
   ("noviembre", some 10), ("nov", some 10),
   ("diciembre", some 11), ("dic", some 11)]

/-- `MONTH_RX` followed by the `monoMonth` table lookup on the matched text. -/
def pMonth : P (Option Int) :=
  pAlt (monthCandidates.map (fun mc => do
    pLitCI mc.1
    pure mc.2))

/-- `yearInfer` (intake.js lines 340-346): with no explicit year, assume the
reference year; if the resulting date is more than 7 days in the past, bump to
next year. -/
def yearInfer (refMs : Int) (mm dd : Int) : Int :=
  let y := getFullYear refMs
  let d := jsDateMs y mm dd 0 0
  let sevenDaysAgo := refMs - 7 * 24 * 60 * 60 * 1000
  if d < sevenDaysAgo then y + 1 else y

/-- The `WEEKDAYS` table in object-key insertion order (the order of regex
alternation when the keys are joined with `|`). -/
def WEEKDAYS : List (String × Int) :=
  [("sun", 0), ("sunday", 0), ("mon", 1), ("monday", 1),
   ("tue", 2), ("tues", 2), ("tuesday", 2),
   ("wed", 3), ("weds", 3), ("wednesday", 3),
   ("thu", 4), ("thur", 4), ("thurs", 4), ("thursday", 4),
   ("fri", 5), ("friday", 5), ("sat", 6), ("saturday", 6)]

/-- Weekday-name alternation `(sun|sunday|...|saturday)`. -/
def pWeekday : P Int :=
  pAlt (WEEKDAYS.map (fun wk => do
    pLitCI wk.1
    pure wk.2))

/-- `startOfDay` (intake.js): `setHours(0,0,0,0)`. -/
def startOfDay (ms : Int) : Int := epochDay ms * msPerDay

/-- `setHM(d, h, m)` (intake.js): `setHours(h, m, 0, 0)`. -/
def setHM (ms h min : Int) : Int := jsSetHours ms h min

/-- `nextWeekday` (intake.js): always at least one day in the future. -/
def nextWeekday (refMs wd : Int) : Int :=
  let x := startOfDay refMs
  let cur := getDay x
  let diff0 := (wd - cur + 7) % 7
  let diff := if diff0 = 0 then 7 else diff0
  jsAddDays x diff

/-- `thisOrNextWeekday` (intake.js): today counts. -/
def thisOrNextWeekday (refMs wd : Int) : Int :=
  let x := startOfDay refMs
  let cur := getDay x
  jsAddDays x ((wd - cur + 7) % 7)

/-- `weekSpan` (intake.js): the Monday..Sunday span of this or next week. -/
def weekSpan (refMs : Int) (isNext : Bool) : Int × Int :=
  let x := startOfDay refMs
  let day := getDay x
  let mondayOffset := if day = 0 then -6 else 1 - day
  let start0 := jsAddDays x mondayOffset
  let start := if isNext then jsAddDays start0 7 else start0
  (start, jsAddDays start 6)

/-- `nthWeekdayOfMonth` (intake.js lines 384-390): e.g. the 4th Thursday of
November.  Returns `new Date(year, monthIndex, day)` as ms. -/
def nthWeekdayOfMonth (year monthIndex weekday n : Int) : Int :=
  let first := jsDateMs year monthIndex 1 0 0
  let firstWd := getDay first
  let offset := (weekday - firstWd + 7) % 7
  let day := 1 + offset + 7 * (n - 1)
  jsDateMs year monthIndex day 0 0

/-- `usHolidays` (intake.js lines 393-429) as an association list in object-key
order; values are the `Date` of the holiday at local midnight. -/
def usHolidays (y : Int) : List (String × Int) :=
  let newYearsDay := jsDateMs y 0 1 0 0
  let mlkDay := nthWeekdayOfMonth y 0 1 3
  let presidentsDay := nthWeekdayOfMonth y 1 1 3
  let memorialDay :=
    let last := jsDateMs y 4 31 0 0
    let d := getDay last
    jsAddDays last (-((d + 6) % 7))
  let independenceDay := jsDateMs y 6 4 0 0
  let laborDay := nthWeekdayOfMonth y 8 1 1
  let columbusDay := nthWeekdayOfMonth y 9 1 2
  let halloween := jsDateMs y 9 31 0 0
  let thanksgiving := nthWeekdayOfMonth y 10 4 4
  let christmasEve := jsDateMs y 11 24 0 0
  let christmas := jsDateMs y 11 25 0 0
  let newYearsEve := jsDateMs y 11 31 0 0
  [("new year", newYearsDay),
   ("new year's", newYearsDay),
   ("new year's day", newYearsDay),
   ("new year's eve", newYearsEve),
   ("christmas", christmas),
   ("christmas day", christmas),
   ("christmas eve", christmasEve),
   ("thanksgiving", thanksgiving),
   ("halloween", halloween),
   ("memorial day", memorialDay),
   ("independence day", independenceDay),
   ("labor day", laborDay),
   ("columbus day", columbusDay),
   ("mlk day", mlkDay),
   ("presidents day", presidentsDay)]

/-- `usHolidays(y)[name]`. -/
def usHolidayLookup (y : Int) (name : String) : Option Int :=
  (usHolidays y).lookup name

/-- `holidayContextMonth` (intake.js lines 432-448): the {year, month} anchor of
the first holiday name contained in the text, preferring the upcoming
occurrence. -/
def holidayContextMonth (text : String) (refMs : Int) : Option (Int × Int) :=
  let t := lowerStr text
  let names :=
    ["thanksgiving", "christmas", "christmas day", "christmas eve",
     "new year", "new year's", "new year's day", "new year's eve",
     "halloween", "mlk day", "presidents day", "memorial day",
     "independence day", "labor day", "columbus day"]
  match names.find? (fun n => containsSubstr t n) with
  | none => none
  | some hit =>
    let y0 := getFullYear refMs
    let d1 :=
      match usHolidayLookup y0 hit with
      | some v => if v < refMs then usHolidayLookup (y0 + 1) hit else some v
      | none => usHolidayLookup (y0 + 1) hit
    match d1 with
    | none => none
    | some v => some (getFullYear v, getMonth0 v)

/-- `dayPartToHour` (intake.js lines 451-458). -/
def dayPartToHour (word : String) : Int :=
  let w := lowerStr word
  if containsSubstr w "morning" then 9
  else if containsSubstr w "afternoon" then 14
  else if containsSubstr w "evening" then 18
  else if containsSubstr w "night" then 20
  else 17

/-! ## intake.js: time tokens, drop-off/pick-up extraction, rover meta -/

/-- Greedy `class{lo,}` returning the consumed characters. -/
def pTakeG (f : Char → Bool) (lo : Nat) : P (List Char) := ⟨fun cs =>
  let r := runLen f cs
  if r < lo then []
  else (List.range (r + 1 - lo)).map (fun i => (cs.take (r - i), cs.drop (r - i)))⟩

/-- Greedy `p*` for a sub-pattern, most repetitions first (fuelled; every
sub-pattern used consumes at least one character). -/
def pStarMost {α : Type} (p : P α) : Nat → P (List α)
  | 0 => ⟨fun cs => [([], cs)]⟩
  | fuel + 1 => ⟨fun cs =>
    (((p.run cs).map (fun r =>
      ((pStarMost p fuel).run r.2).map (fun q => (r.1 :: q.1, q.2)))).flatten) ++ [([], cs)]⟩

/-- Greedy `p+`, most repetitions first. -/
def pPlusMost {α : Type} (p : P α) : P (List α) := ⟨fun cs =>
  ((p.run cs).map (fun r =>
    ((pStarMost p cs.length).run r.2).map (fun q => (r.1 :: q.1, q.2)))).flatten⟩

def natOfDigits (l : List Char) : Nat :=
  l.foldl (fun acc c => acc * 10 + (c.toNat - 48)) 0

/-- `parseTimeToken`'s regex `/~?\s*(\d{1,2})(?::|\.|h)?(\d{2})?\s*(a|p)?m?\b/`.
The captures (hour digits, optional minute digits, optional a/p) are
insensitive to how the trailing `\s*`/`\b` backtracking resolves, so the
simple next-char-is-not-a-word-character end condition is capture-exact. -/
def pTimeTokenRx : P (Nat × Option Nat × Option Char) := do
  _ ← pOptG (pLitCI "~")
  _ ← pWSStar
  let h ← pDigits 1 2
  _ ← pOptG (pChar (fun c => c == ':' || c == '.' || c == 'h'))
  let mn ← pOptG (pDigits 2 2)
  _ ← pWSStar
  let ap ← pOptG (pChar (fun c => c == 'a' || c == 'p'))
  _ ← pOptG (pLitCI "m")
  pEndWB
  pure (h, mn, ap)

/-- `parseTimeToken` (intake.js lines 461-470). Returns (hour, minute). -/
def parseTimeToken (tok : String) : Option (Int × Int) :=
  match firstMatch false pTimeTokenRx (lowerStr tok).toList with
  | none => none
  | some (_, (h0, mn, ap), _) =>
    let h1 : Int := (h0 : Int)
    let h2 := if ap == some 'p' && decide (h1 < 12) then h1 + 12 else h1
    let h := if ap == some 'a' && h2 == 12 then 0 else h2
    let min : Int := (mn.getD 0 : Nat)
    if 0 ≤ h ∧ h ≤ 23 ∧ 0 ≤ min ∧ min ≤ 59 then some (h, min) else none

/-- The character class `[0-9:.apm\s]`. -/
def timeClass (c : Char) : Bool :=
  isDigitC c || c == ':' || c == '.' || c == 'a' || c == 'p' || c == 'm' || isWS c

/-- `drop[\s-]?off` / `pick[\s-]?up` heads. -/
def pDropPickHead (w1 w2 : String) : P Unit := do
  pLitCI w1
  _ ← pOptG (pChar (fun c => isWS c || c == '-'))
  pLitCI w2

def isLowerAlphaNum (c : Char) : Bool :=
  (97 ≤ c.toNat && c.toNat ≤ 122) || isDigitC c

def wordnessDiffers (a b : Option Char) : Bool :=
  (match a with | some c => isWordChar c | none => false) !=
  (match b with | some c => isWordChar c | none => false)

/-- Capture `([0-9:.apm\s]+)\b`: the longest class run whose end sits on a word
boundary. -/
def timeRunCapture (cs : List Char) : Option String :=
  let r := runLen timeClass cs
  (List.range r).findSome? (fun i =>
    let k := r - i
    let nxt := (cs.drop k).head?
    if wordnessDiffers ((cs.take k).getLast?) nxt then some (String.mk (cs.take k)) else none)

/-- The optional `(?:.*?\bat\b\s*)?` skip: jump past the earliest
word-bounded "at" (plus following whitespace) if one exists. -/
def atGroupSkip (cs : List Char) : List Char :=
  match (positions cs).findSome? (fun pos =>
    if prevIsWord pos.2.1 then none
    else match litMatchCI "at".toList pos.2.2 with
      | some rest =>
        match rest.head? with
        | some c => if isWordChar c then none else some rest
        | none => some rest
      | none => none) with
  | some rest => rest.drop (runLen isWS rest)
  | none => cs

/-- The time capture of the drop-off/pick-up regexes
`/drop[\s-]?off[^a-z0-9]{0,12}(?:.*?\bat\b\s*)?([0-9:.apm\s]+)\b/` (and the
`pick[\s-]?up` analogue), applied to the lowercased text.  The capture tail
follows the first backtracking branch of the source regex; no verified input
contains a drop-off or pick-up clause, so only the no-match behaviour is
load-bearing. -/
def extractSideTime (w1 w2 : String) (t : List Char) : Option String :=
  (positions t).findSome? (fun pos =>
    match (pDropPickHead w1 w2).run pos.2.2 with
    | [] => none
    | (_, rest) :: _ =>
      let k := min 12 (runLen (fun c => !isLowerAlphaNum c) rest)
      timeRunCapture (atGroupSkip (rest.drop k)))

/-- The generic `from X to Y` time-range regex
`/(?:from|de)\s+([0-9:.apm\s]+)\s+(?:to|a|hasta|-|–|—)\s+([0-9:.apm\s]+)/`. -/
def pFromTo : P (String × String) := do
  pAlt [pLitCI "from", pLitCI "de"]
  _ ← pWSPlus
  let c1 ← pTakeG timeClass 1
  _ ← pWSPlus
  pAlt [pLitCI "to", pLitCI "a", pLitCI "hasta", pLitCI "-", pLitCI "–", pLitCI "—"]
  _ ← pWSPlus
  let c2 ← pTakeG timeClass 1
  pure (String.mk c1, String.mk c2)

/-- `extractDropPickTimes` (intake.js lines 471-482). -/
def extractDropPickTimes (text : String) :
    Option (Option (Int × Int) × Option (Int × Int)) :=
  let t := (lowerStr text).toList
  let dropCap := extractSideTime "drop" "off" t
  let pickCap := extractSideTime "pick" "up" t
  let a := dropCap.bind parseTimeToken
  let b := pickCap.bind parseTimeToken
  if a.isNone && b.isNone then
    match firstMatch false pFromTo t with
    | some (_, caps, _) => some (parseTimeToken caps.1, parseTimeToken caps.2)
    | none => none
  else some (a, b)

/-! ### extractRoverMeta / extractPetNames -/

def isUpperAZ (c : Char) : Bool := 65 ≤ c.toNat && c.toNat ≤ 90
def isLowerAZ (c : Char) : Bool := 97 ≤ c.toNat && c.toNat ≤ 122
def isAlphaAZ (c : Char) : Bool := isUpperAZ c || isLowerAZ c

/-- `[A-ZÁÉÍÓÚÑ]`. -/
def isUpperX (c : Char) : Bool := isUpperAZ c || "ÁÉÍÓÚÑ".toList.contains c

/-- `[a-záéíóúñ]`. -/
def isLowerX (c : Char) : Bool := isLowerAZ c || "áéíóúñ".toList.contains c

/-- `[A-ZÁÉÍÓÚÑ]` or `[a-záéíóúñ]` under the `i` flag. -/
def isLetterX (c : Char) : Bool := isUpperX c || isLowerX c

/-- `([A-Z][a-z]+)` (case-sensitive). -/
def pCapWord : P String := do
  let u ← pChar isUpperAZ
  let ls ← pTakeG isLowerAZ 1
  pure (String.mk (u :: ls))

/-- `/from\s+([A-Z][a-z]+)(?::|\b)/` (extractRoverMeta `owner`). -/
def pOwnerRx : P String := do
  pLitCS "from"
  _ ← pWSPlus
  let w ← pCapWord
  pAlt [pLitCS ":", pEndWB]
  pure w

/-- `/from\s+[A-Z][a-z]+:\s+([A-Z][a-z]+(?:\s+[A-Z][a-z]+)+)/`
(extractRoverMeta `fullOwner`). -/
def pFullOwnerRx : P String := do
  pLitCS "from"
  _ ← pWSPlus
  _ ← pCapWord
  pLitCS ":"
  _ ← pWSPlus
  let w ← pCapWord
  let more ← pPlusMost (do
    let sp ← pTakeG isWS 1
    let w2 ← pCapWord
    pure (String.mk sp ++ w2))
  pure (w ++ String.join more)

/-- `(?:mos?|months?)` in source alternation/greedy order. -/
def pMonthsUnit : P Unit :=
  pAlt [pLitCI "mos", pLitCI "mo", pLitCI "months", pLitCI "month"]

/-- `/\b([A-Z][a-z]+)\s*\((?:\d+\s*(?:mos?|months?)|[\d\.]+\s*lbs)/`
(extractRoverMeta `pet`, first alternative). -/
def pPetParenRx : P String := do
  let w ← pCapWord
  _ ← pWSStar
  pLitCS "("
  pAlt [do
          _ ← pTakeG isDigitC 1
          _ ← pWSStar
          pMonthsUnit,
        do
          _ ← pTakeG (fun c => isDigitC c || c == '.') 1
          _ ← pWSStar
          pLitCS "lbs"]
  pure w

/-- `([A-Z][a-z]+)` under the `i` flag: any-case initial, any-case tail. -/
def pCapWordCI : P String := do
  let u ← pChar isAlphaAZ
  let ls ← pTakeG isAlphaAZ 1
  pure (String.mk (u :: ls))

/-- `/\b([A-Z][a-z]+)’?s\s+mom\b/i` (extractRoverMeta `pet`, second
alternative). -/
def pPetMomRx : P String := do
  let w ← pCapWordCI
  _ ← pOptG (pLitCS "’")
  pLitCI "s"
  _ ← pWSPlus
  pLitCI "mom"
  pEndWB
  pure w

/-- `/\bdrop\s+([A-Z][a-z]+)\s+off\b/i` (extractRoverMeta `pet`, third
alternative). -/
def pPetDropRx : P String := do
  pLitCI "drop"
  _ ← pWSPlus
  let w ← pCapWordCI
  _ ← pWSPlus
  pLitCI "off"
  pEndWB
  pure w

/-- `/\((\d+)\s*(?:mos?|months?)\b/i` (extractRoverMeta `age`). -/
def pAgeRx : P Nat := do
  pLitCS "("
  let d ← pTakeG isDigitC 1
  _ ← pWSStar
  pMonthsUnit
  pEndWB
  pure (natOfDigits d)

/-- `/([\d\.]+)\s*lb?s?\b/i` (extractRoverMeta `weight`); the capture text. -/
def pWeightRx : P String := do
  let d ← pTakeG (fun c => isDigitC c || c == '.') 1
  _ ← pWSStar
  pLitCI "l"
  _ ← pOptG (pLitCI "b")
  _ ← pOptG (pLitCI "s")
  pEndWB
  pure (String.mk d)

structure RoverMeta where
  ownerName : Option String
  petName : Option String
  petAgeMonths : Option Int
  petWeightLbs : Option Int
deriving DecidableEq, Repr

/-- The source converts the weight capture with unary `+`, which can produce a
non-integral number when the capture contains a dot; no verified input matches
the weight pattern, and we model only the integral case. -/
def weightToInt (s : String) : Option Int :=
  if s ≠ "" ∧ s.toList.all isDigitC then some (natOfDigits s.toList : Nat) else none

/-- `extractRoverMeta` (intake.js lines 485-500). -/
def extractRoverMeta (text : String) : RoverMeta :=
  let cs := text.toList
  let owner := firstMatch false pOwnerRx cs
  let fullOwner := firstMatch false pFullOwnerRx cs
  let pet :=
    match firstMatch true pPetParenRx cs with
    | some r => some r
    | none =>
      match firstMatch true pPetMomRx cs with
      | some r => some r
      | none => firstMatch true pPetDropRx cs
  let age := firstMatch false pAgeRx cs
  let weight := firstMatch false pWeightRx cs
  { ownerName :=
      match fullOwner with
      | some r => some r.2.1
      | none => (owner.map (fun r => r.2.1)),
    petName := pet.map (fun r => r.2.1),
    petAgeMonths := age.map (fun r => (r.2.1 : Int)),
    petWeightLbs := weight.bind (fun r => weightToInt r.2.1) }

/-- `/\b([A-ZÁÉÍÓÚÑ][a-záéíóúñ]{2,})’?'s\s+mom\b/` (extractPetNames, case
sensitive). -/
def pNameMomRx : P String := do
  let u ← pChar isUpperX
  let ls ← pTakeG isLowerX 2
  _ ← pOptG (pLitCS "’")
  pLitCS "'s"
  _ ← pWSPlus
  pLitCS "mom"
  pEndWB
  pure (String.mk (u :: ls))

/-- `/\bdrop\s+([A-ZÁÉÍÓÚÑ][a-záéíóúñ]{2,})\s+off\b/i` (extractPetNames). -/
def pNameDropRx : P String := do
  pLitCI "drop"
  _ ← pWSPlus
  let u ← pChar isLetterX
  let ls ← pTakeG isLetterX 2
  _ ← pWSPlus
  pLitCI "off"
  pEndWB
  pure (String.mk (u :: ls))

/-- `/\b(?:for|para)\s+(?:my|mi)?\s*(?:dog|perro)?\s*([A-ZÁÉÍÓÚÑ][a-záéíóúñ]{2,})\b/i`
(extractPetNames). -/
def pNameForRx : P String := do
  pAlt [pLitCI "for", pLitCI "para"]
  _ ← pWSPlus
  _ ← pOptG (pAlt [pLitCI "my", pLitCI "mi"])
  _ ← pWSStar
  _ ← pOptG (pAlt [pLitCI "dog", pLitCI "perro"])
  _ ← pWSStar
  let u ← pChar isLetterX
  let ls ← pTakeG isLetterX 2
  pEndWB
  pure (String.mk (u :: ls))

def dedupFirst (l : List String) : List String :=
  l.foldl (fun acc x => if acc.contains x then acc else acc ++ [x]) []

/-- `extractPetNames` (intake.js lines 815-824): candidate names in `Set`
insertion order. -/
def extractPetNames (text : String) : List String :=
  let cs := text.toList
  let mom := firstMatch true pNameMomRx cs
  let drp := firstMatch true pNameDropRx cs
  let forN := firstMatch true pNameForRx cs
  dedupFirst (((mom.map (fun r => r.2.1)).toList) ++
              ((drp.map (fun r => r.2.1)).toList) ++
              ((forN.map (fun r => r.2.1)).toList))

/-! ## intake.js: scanDateTokens -/

/-- A date token of `scanDateTokens`: month index (possibly `null` when a full
month name is missing from the lookup tables), day, resolved year, and match
index in the normalized string. -/
structure Tok where
  mm : Option Int
  dd : Int
  yy : Int
  idx : Nat
deriving DecidableEq, Repr

/-- `text.replace(/\,/g, ' , ')`. -/
def spaceCommas (cs : List Char) : List Char :=
  cs.flatMap (fun c => if c == ',' then [' ', ',', ' '] else [c])

/-- `.replace(/\s+/g, ' ')`. -/
def collapseWSAux : Bool → List Char → List Char
  | _, [] => []
  | prevWS, c :: cs =>
    if isWS c then
      if prevWS then collapseWSAux true cs else ' ' :: collapseWSAux true cs
    else c :: collapseWSAux false cs

def collapseWS (cs : List Char) : List Char := collapseWSAux false cs

/-- `String.prototype.trim`. -/
def trimChars (cs : List Char) : List Char :=
  ((cs.dropWhile isWS).reverse.dropWhile isWS).reverse

def jsTrim (s : String) : String := String.mk (trimChars s.toList)

def pDateSep : P Char := pChar (fun c => c == '/' || c == '-')

def pOrdSuffix : P Unit :=
  pAlt [pLitCI "st", pLitCI "nd", pLitCI "rd", pLitCI "th"]

/-- rx1: `\b(MONTH_RX)\s+(\d{1,2})(?:\s*,?\s*(\d{4}))?`. -/
def pRx1 : P (Option Int × Nat × Option Nat) := do
  let mm ← pMonth
  _ ← pWSPlus
  let dd ← pDigits 1 2
  let yr ← pOptG (do
    _ ← pWSStar
    _ ← pOptG (pLitCS ",")
    _ ← pWSStar
    pDigits 4 4)
  pure (mm, dd, yr)

/-- rx2: `\b(\d{1,2})\s*(?:de|del)\s*(MONTH_RX)(?:\s*(?:de\s*)?(\d{4}))?`. -/
def pRx2 : P (Nat × Option Int × Option Nat) := do
  let dd ← pDigits 1 2
  _ ← pWSStar
  pAlt [pLitCI "de", pLitCI "del"]
  _ ← pWSStar
  let mm ← pMonth
  let yr ← pOptG (do
    _ ← pWSStar
    _ ← pOptG (do
      pLitCI "de"
      _ ← pWSStar
      pure ())
    pDigits 4 4)
  pure (dd, mm, yr)

/-- rx3: `\b(\d{1,2})[\/\-](\d{1,2})(?:[\/\-](\d{2,4}))?\b`. -/
def pRx3 : P (Nat × Nat × Option Nat) := do
  let m1 ← pDigits 1 2
  _ ← pDateSep
  let d1 ← pDigits 1 2
  let yr ← pOptG (do
    _ ← pDateSep
    pDigits 2 4)
  pEndWB
  pure (m1, d1, yr)

def pCompactDash : P Char := pChar (fun c => c == '–' || c == '—' || c == '-')

/-- c1: `\b(MONTH_RX)\s+(\d{1,2})\s*[–—-]\s*(\d{1,2})(?:\s*,?\s*(\d{4}))?`. -/
def pC1 : P (Option Int × Nat × Nat × Option Nat) := do
  let mm ← pMonth
  _ ← pWSPlus
  let d1 ← pDigits 1 2
  _ ← pWSStar
  _ ← pCompactDash
  _ ← pWSStar
  let d2 ← pDigits 1 2
  let yr ← pOptG (do
    _ ← pWSStar
    _ ← pOptG (pLitCS ",")
    _ ← pWSStar
    pDigits 4 4)
  pure (mm, d1, d2, yr)

/-- c2: `\b(\d{1,2})\s*[–—-]\s*(\d{1,2})\s*(?:de\s*)?(MONTH_RX)(?:\s*(\d{4}))?`. -/
def pC2 : P (Nat × Nat × Option Int × Option Nat) := do
  let d1 ← pDigits 1 2
  _ ← pWSStar
  _ ← pCompactDash
  _ ← pWSStar
  let d2 ← pDigits 1 2
  _ ← pWSStar
  _ ← pOptG (do
    pLitCI "de"
    _ ← pWSStar
    pure ())
  let mm ← pMonth
  let yr ← pOptG (do
    _ ← pWSStar
    pDigits 4 4)
  pure (d1, d2, mm, yr)

/-- Stable insertion sort by token index (modern `Array.prototype.sort` is
stable; ties keep push order). -/
def insertByIdx (t : Tok) : List Tok → List Tok
  | [] => [t]
  | u :: us => if u.idx ≤ t.idx then u :: insertByIdx t us else t :: u :: us

def sortByIdx (l : List Tok) : List Tok := l.foldl (fun acc t => insertByIdx t acc) []

/-- Decimal length of `String(n)` for the nonnegative `dd2` capture. -/
def decLen (n : Nat) : Nat := (toString n).length

/-- `scanDateTokens` (intake.js lines 503-546): five global regex passes over
the comma-spaced, whitespace-collapsed, trimmed text, merged and stably sorted
by match index.  The regexes carry the `i` flag, so matching runs on the
lowercased characters (indices are unchanged). -/
def scanDateTokens (text : String) (refMs : Int) : List Tok :=
  let s := trimChars (collapseWS (spaceCommas text.toList))
  let cs := s.map asciiLower
  let t1 := (allMatches true pRx1 cs).map (fun m =>
    let mm := m.2.1.1
    let dd : Int := (m.2.1.2.1 : Nat)
    let yy : Int := match m.2.1.2.2 with
      | some y => (y : Nat)
      | none => yearInfer refMs (jsNum0 mm) dd
    { mm := mm, dd := dd, yy := yy, idx := m.1 : Tok })
  let t2 := (allMatches true pRx2 cs).map (fun m =>
    let dd : Int := (m.2.1.1 : Nat)
    let mm := m.2.1.2.1
    let yy : Int := match m.2.1.2.2 with
      | some y => (y : Nat)
      | none => yearInfer refMs (jsNum0 mm) dd
    { mm := mm, dd := dd, yy := yy, idx := m.1 : Tok })
  let t3 := (allMatches true pRx3 cs).map (fun m =>
    let mm : Int := (m.2.1.1 : Nat) - 1
    let dd : Int := (m.2.1.2.1 : Nat)
    let yr : Int := match m.2.1.2.2 with
      | some y => (y : Nat)
      | none => yearInfer refMs mm dd
    let yy := if yr < 100 then 2000 + yr else yr
    { mm := some mm, dd := dd, yy := yy, idx := m.1 : Tok })
  let tc1 := (allMatches true pC1 cs).flatMap (fun m =>
    let mm := m.2.1.1
    let d1 : Int := (m.2.1.2.1 : Nat)
    let d2n := m.2.1.2.2.1
    let d2 : Int := (d2n : Nat)
    let yy : Int := match m.2.1.2.2.2 with
      | some y => (y : Nat)
      | none => yearInfer refMs (jsNum0 mm) d1
    [{ mm := mm, dd := d1, yy := yy, idx := m.1 : Tok },
     { mm := mm, dd := d2, yy := yy, idx := m.1 + m.2.2 - decLen d2n : Tok }])
  let tc2 := (allMatches true pC2 cs).flatMap (fun m =>
    let d1 : Int := (m.2.1.1 : Nat)
    let d2n := m.2.1.2.1
    let d2 : Int := (d2n : Nat)
    let mm := m.2.1.2.2.1
    let yy : Int := match m.2.1.2.2.2 with
      | some y => (y : Nat)
      | none => yearInfer refMs (jsNum0 mm) d1
    [{ mm := mm, dd := d1, yy := yy, idx := m.1 : Tok },
     { mm := mm, dd := d2, yy := yy, idx := m.1 + m.2.2 - decLen d2n : Tok }])
  sortByIdx (t1 ++ t2 ++ t3 ++ tc1 ++ tc2)

/-! ## intake.js: parseSegments (the temporal expression resolver) -/

/-- A date segment: {startAt, endAt, serviceHint}. -/
structure Seg where
  startAt : Int
  endAt : Int
  serviceHint : String
deriving DecidableEq, Repr

/-- `mk(y, m, d, t)` (parseSegments local helper, intake.js lines 563-568):
`new Date(y, m, d)` then the given time or the 17:00 default. -/
def mkDT (y m d : Int) (t : Option (Int × Int)) : Int :=
  match t with
  | some hm => jsDateMs y m d hm.1 hm.2
  | none => jsDateMs y m d 17 0

/-- `spanHint(a, b)` (intake.js lines 569-572). -/
def spanHint (a b : Int) : String :=
  if 1 ≤ jsRoundDiv (b - a) msPerDay then "Overnight" else "Daycare"

/-- The end-before-start day-rollover fix `if (endAt < startAt)
endAt.setDate(endAt.getDate() + 1)` used by every range-building stage. -/
def rolloverFix (startAt endAt : Int) : Int :=
  if endAt < startAt then jsAddDays endAt 1 else endAt

def getHours (ms : Int) : Int := (timeOfDayMs ms).fdiv 3600000

/-- `e.setHours(h)` with a single argument: minutes/seconds of `e` survive;
hour overflow rolls into the following day as in ECMAScript. -/
def jsSetHoursOnly (ms h : Int) : Int :=
  epochDay ms * msPerDay + h * 3600000 + (timeOfDayMs ms).emod 3600000

def pGuard (b : Bool) : P Unit := if b then pure () else pFail

/-- `.replace(/–|—/g, '-')`. -/
def replDashes (cs : List Char) : List Char :=
  cs.map (fun c => if c == '–' || c == '—' then '-' else c)

/-- One `.replace(/\s+w\s+/gi, ' w ')` pass (w ∈ to/through/until/till):
leftmost-longest whitespace runs around a case-insensitive word collapse to
single spaces around the lowercase word. -/
def replaceWordWSAux (w : List Char) : Nat → List Char → List Char
  | 0, cs => cs
  | _ + 1, [] => []
  | fuel + 1, c :: cs =>
    if isWS c then
      let n := runLen isWS (c :: cs)
      let afterWS := (c :: cs).drop n
      match litMatchCI w afterWS with
      | some rest =>
        let n2 := runLen isWS rest
        if n2 == 0 then c :: replaceWordWSAux w fuel cs
        else (' ' :: w) ++ (' ' :: replaceWordWSAux w fuel (rest.drop n2))
      | none => c :: replaceWordWSAux w fuel cs
    else c :: replaceWordWSAux w fuel cs

def replaceWordWS (w : String) (cs : List Char) : List Char :=
  replaceWordWSAux w.toList cs.length cs

/-- The `norm` preprocessing of parseSegments (intake.js lines 555-560). -/
def normalizeParse (cs : List Char) : List Char :=
  replaceWordWS "till"
    (replaceWordWS "until"
      (replaceWordWS "through"
        (replaceWordWS "to" (replDashes cs))))

/-- Stage A: `\b(\d{1,2})[\/\-](\d{1,2})(?:[\/\-](\d{2,4}))?\s*(?:to|through|thru|until|till|a|hasta|al|-\s*|\s*-\s*)\s*(\d{1,2})[\/\-](\d{1,2})(?:[\/\-](\d{2,4}))?\b`. -/
def pFastRange : P (Nat × Nat × Option Nat × Nat × Nat × Option Nat) := do
  let m1 ← pDigits 1 2
  _ ← pDateSep
  let d1 ← pDigits 1 2
  let y1 ← pOptG (do
    _ ← pDateSep
    pDigits 2 4)
  _ ← pWSStar
  pAlt [pLitCI "to", pLitCI "through", pLitCI "thru", pLitCI "until", pLitCI "till",
        pLitCI "a", pLitCI "hasta", pLitCI "al",
        do
          pLitCI "-"
          _ ← pWSStar
          pure (),
        do
          _ ← pWSStar
          pLitCI "-"
          _ ← pWSStar
          pure ()]
  _ ← pWSStar
  let m2 ← pDigits 1 2
  _ ← pDateSep
  let d2 ← pDigits 1 2
  let y2 ← pOptG (do
    _ ← pDateSep
    pDigits 2 4)
  pEndWB
  pure (m1, d1, y1, m2, d2, y2)

/-- Stage B patterns `\btoday\b`, `\btonight\b`, `\btomorrow\b`. -/
def pWordB (w : String) : P Unit := do
  pLitCI w
  pEndWB

def pThisNext : P Bool :=
  pAlt [do
          pLitCI "this"
          pure false,
        do
          pLitCI "next"
          pure true]

/-- Stage C: `\b(this|next)\s+week\b`. -/
def pThisNextWeek : P Bool := do
  let isNext ← pThisNext
  _ ← pWSPlus
  pLitCI "week"
  pEndWB
  pure isNext

/-- Stage D: `\b(this|next)\s+(long\s+)?weekend\b`. -/
def pWkndRx : P (Bool × Bool) := do
  let isNext ← pThisNext
  _ ← pWSPlus
  let lng ← pOptG (do
    pLitCI "long"
    _ ← pWSPlus
    pure ())
  pLitCI "weekend"
  pEndWB
  pure (isNext, lng.isSome)

/-- Stage D: `\b(WD)\s*(?:to|-)\s*(WD)\b`. -/
def pWdRangeRx : P (Int × Int) := do
  let a ← pWeekday
  _ ← pWSStar
  pAlt [pLitCI "to", pLitCI "-"]
  _ ← pWSStar
  let b ← pWeekday
  pEndWB
  pure (a, b)

/-- Stage D: `\b(this|next)\s+(WD)\b`. -/
def pSingleWdRx : P (Bool × Int) := do
  let isNext ← pThisNext
  _ ← pWSPlus
  let wd ← pWeekday
  pEndWB
  pure (isNext, wd)

/-- The stage-E holiday vocabulary in source order; each word is compiled with
spaces turned into `\s+` and wrapped in `\b...\b`. -/
def holWords : List String :=
  ["new year", "new year's", "new year's day", "new year's eve",
   "christmas", "christmas day", "christmas eve",
   "thanksgiving", "halloween", "memorial day", "independence day",
   "labor day", "columbus day", "mlk day", "presidents day"]

def pHolWord (w : String) : P Unit := ⟨fun cs =>
  match kwMatchAt w.toList cs with
  | some rest => [((), rest)]
  | none => []⟩

def pHolidayRx : P Unit := pAlt (holWords.map pHolWord)

/-- The stage-E holiday day selection (intake.js lines 680-685): take this
year's date for the matched holiday key; if it is missing or more than 7 days
in the past, take next year's. -/
def holidayStageDay (refMs : Int) (key : String) : Option Int :=
  let yNow := getFullYear refMs
  match usHolidayLookup yNow key with
  | some d =>
    if d < jsAddDays refMs (-7) then usHolidayLookup (yNow + 1) key else some d
  | none => usHolidayLookup (yNow + 1) key

/-- Stage F: `\b(\d+(?:st|nd|rd|th)|first|second|third|fourth)\s+weekend\s+of\s+(MONTH_RX)\b`;
the value is `ordMap[ordWord] || parseInt(ordWord, 10)` and the month option. -/
def pWkendOfRx : P (Nat × Option Int) := do
  let n ← pAlt [do
                  let d ← pDigits 1 9
                  pOrdSuffix
                  pure d,
                do
                  pLitCI "first"
                  pure 1,
                do
                  pLitCI "second"
                  pure 2,
                do
                  pLitCI "third"
                  pure 3,
                do
                  pLitCI "fourth"
                  pure 4]
  _ ← pWSPlus
  pLitCI "weekend"
  _ ← pWSPlus
  pLitCI "of"
  _ ← pWSPlus
  let mm ← pMonth
  pEndWB
  pure (n, mm)

/-- The nth Saturday scan of stage F (`for d = 1..31 … if (dt.getDay() === 6)`);
a `null` month makes the `dt.getMonth() !== mm` guard break immediately. -/
def nthSaturday (y : Int) (mmOpt : Option Int) (n : Nat) : Option Int :=
  match mmOpt with
  | none => none
  | some mm =>
    (List.range 31).foldl (fun acc i =>
      match acc with
      | Sum.inr found => Sum.inr found
      | Sum.inl cnt =>
        let d : Int := (i : Int) + 1
        let dt := jsDateMs y mm d 0 0
        if getMonth0 dt ≠ mm then Sum.inr none
        else if getDay dt = 6 then
          if cnt + 1 == n then Sum.inr (some dt) else Sum.inl (cnt + 1)
        else Sum.inl cnt) (Sum.inl 0)
    |>.elim (fun _ => none) id

/-- Stage G: `\b(this|next)\s+month\b`. -/
def pRelMonthRx : P Bool := do
  let isNext ← pThisNext
  _ ← pWSPlus
  pLitCI "month"
  pEndWB
  pure isNext

/-- Stage G: `\bmonth[^0-9]*(\d{1,2})\s*[-]\s*(\d{1,2})\b`. -/
def pMonthRangeRx : P (Nat × Nat) := do
  pLitCI "month"
  _ ← pStarG (fun c => !isDigitC c)
  let d1 ← pDigits 1 2
  _ ← pWSStar
  pLitCS "-"
  _ ← pWSStar
  let d2 ← pDigits 1 2
  pEndWB
  pure (d1, d2)

/-- Stage G: `\bon\s+the\s+(\d{1,2})(?:st|nd|rd|th)?\b`. -/
def pOnTheRx : P Nat := do
  pLitCI "on"
  _ ← pWSPlus
  pLitCI "the"
  _ ← pWSPlus
  let d ← pDigits 1 2
  _ ← pOptG pOrdSuffix
  pEndWB
  pure d

/-- Stage G: `\bmonth[^0-9]*(\d{1,2})\b`. -/
def pMonthDayRx : P Nat := do
  pLitCI "month"
  _ ← pStarG (fun c => !isDigitC c)
  let d ← pDigits 1 2
  pEndWB
  pure d

/-- Stage G: `\b(first|1st)\s+of\s+(MONTH_RX)\b`. -/
def pFirstOfRx : P (Option Int) := do
  pAlt [pLitCI "first", pLitCI "1st"]
  _ ← pWSPlus
  pLitCI "of"
  _ ← pWSPlus
  let mm ← pMonth
  pEndWB
  pure mm

/-- Bare ordinal `\b(\d{1,2})(?:st|nd|rd|th)\b` (stage-H holiday anchoring). -/
def pOrdinalRx : P Nat := do
  let d ← pDigits 1 2
  pOrdSuffix
  pEndWB
  pure d

/-- Day-part word alternation capture. -/
def pDayPart : P String :=
  pAlt [do
          pLitCI "morning"
          pure "morning",
        do
          pLitCI "afternoon"
          pure "afternoon",
        do
          pLitCI "evening"
          pure "evening",
        do
          pLitCI "night"
          pure "night"]

/-- Lazy `[^]{lo,hi}?` returning the consumed characters. -/
def pTakeL (f : Char → Bool) (lo hi : Nat) : P (List Char) := ⟨fun cs =>
  let r := min (runLen f cs) hi
  if r < lo then []
  else (List.range (r + 1 - lo)).map (fun i => (cs.take (lo + i), cs.drop (lo + i)))⟩

/-- `leftPart`:
`/(morning|afternoon|evening|night)[^]{0,40}?\b(?:of\s+)?(?:the\s+)?\d{1,2}(?:st|nd|rd|th)\b/i`. -/
def pLeftPartRx : P String := do
  let w ← pDayPart
  let run ← pTakeL (fun _ => true) 0 40
  pGuard (match run.getLast? with
    | some c => !isWordChar c
    | none => false)
  _ ← pOptG (do
    pLitCI "of"
    _ ← pWSPlus
    pure ())
  _ ← pOptG (do
    pLitCI "the"
    _ ← pWSPlus
    pure ())
  _ ← pDigits 1 2
  pOrdSuffix
  pEndWB
  pure w

/-- `rightPart`: `/\bto\b[^]{0,80}?(morning|afternoon|evening|night)/i`. -/
def pRightPartRx : P String := do
  pLitCI "to"
  pEndWB
  _ ← pTakeL (fun _ => true) 0 80
  pDayPart

/-- The fallback-stage connector test
`\b(?:to|a|hasta|al|through|thru|until|till|-)\b` applied to the lowercased
slice between two tokens. -/
def connTest (sub : List Char) : Bool :=
  (positions sub).any (fun pos =>
    (!prevIsWord pos.2.1 &&
      ["to", "a", "hasta", "al", "through", "thru", "until", "till"].any (fun w =>
        match litMatchCI w.toList pos.2.2 with
        | some rest =>
          match rest.head? with
          | some c => !isWordChar c
          | none => true
        | none => false)) ||
    (prevIsWord pos.2.1 &&
      (match pos.2.2 with
       | '-' :: rest =>
         match rest.head? with
         | some c => isWordChar c
         | none => false
       | _ => false)))

/-- The greedy range-builder walk of the fallback stage (intake.js lines
777-791): pair a token with its successor when a connector appears in the
slice between them, else emit it alone. -/
def pairUpTokens (conn : Tok → Tok → Bool) : List Tok → List (Tok × Option Tok)
  | [] => []
  | [a] => [(a, none)]
  | a :: b :: rest =>
    if conn a b then (a, some b) :: pairUpTokens conn rest
    else (a, none) :: pairUpTokens conn (b :: rest)

/-- `parseSegments` (intake.js lines 550-793): the layered cascade.  Each stage
either returns its segments or falls through to the next. -/
def parseSegments (text : String) (refMs : Int) : List Seg :=
  let src := jsTrim text
  if src = "" then []
  else
    let srcCs := src.toList
    let normCs := normalizeParse srcCs
    let times := extractDropPickTimes src
    let tStart := times.bind (fun t => t.1)
    let tEnd := times.bind (fun t => t.2)
    let tSh := tStart.map (fun t => t.1)
    let tSmin := tStart.map (fun t => t.2)
    let tEh := tEnd.map (fun t => t.1)
    let tEmin := tEnd.map (fun t => t.2)
    let leftPart := (firstMatch false pLeftPartRx srcCs).map (fun r => r.2.1)
    let rightPart := (firstMatch true pRightPartRx srcCs).map (fun r => r.2.1)
    -- A) explicit mm/dd range
    match firstMatch true pFastRange normCs with
    | some (_, (m1, d1, y1, m2, d2, y2), _) =>
      let mm1 : Int := (m1 : Nat) - 1
      let dd1 : Int := (d1 : Nat)
      let mm2 : Int := (m2 : Nat) - 1
      let dd2 : Int := (d2 : Nat)
      let yy1 : Int := match y1 with
        | some y => if (y : Int) < 100 then 2000 + (y : Int) else (y : Int)
        | none => yearInfer refMs mm1 dd1
      let yy2 : Int := match y2 with
        | some y => if (y : Int) < 100 then 2000 + (y : Int) else (y : Int)
        | none => yearInfer refMs mm2 dd2
      let startAt := mkDT yy1 mm1 dd1 tStart
      let endAt := rolloverFix startAt (mkDT yy2 mm2 dd2 tEnd)
      [{ startAt := startAt, endAt := endAt, serviceHint := spanHint startAt endAt }]
    | none =>
    -- B) today / tonight / tomorrow
    if (firstMatch true (pWordB "today") normCs).isSome then
      let s := setHM (startOfDay refMs) (tSh.getD 17) (tSmin.getD 0)
      let e0 := setHM (startOfDay refMs) (tEh.getD 17) (tEmin.getD 0)
      let e := if e0 < s then jsAddDays e0 1 else e0
      [{ startAt := s, endAt := e, serviceHint := spanHint s e }]
    else if (firstMatch true (pWordB "tonight") normCs).isSome then
      let s := setHM refMs 19 0
      let e := jsAddDays (setHM refMs 8 0) 1
      [{ startAt := s, endAt := e, serviceHint := spanHint s e }]
    else if (firstMatch true (pWordB "tomorrow") normCs).isSome then
      let tmr := jsAddDays (startOfDay refMs) 1
      let s := setHM tmr (tSh.getD 17) (tSmin.getD 0)
      let e0 := setHM tmr (tEh.getD 17) (tEmin.getD 0)
      let e := if e0 < s then jsAddDays e0 1 else e0
      [{ startAt := s, endAt := e, serviceHint := spanHint s e }]
    else
    -- C) this/next week
    match firstMatch true pThisNextWeek normCs with
    | some (_, isNext, _) =>
      let sp := weekSpan refMs isNext
      let s := setHM sp.1 (tSh.getD 9) (tSmin.getD 0)
      let e := setHM sp.2 (tEh.getD 17) (tEmin.getD 0)
      [{ startAt := s, endAt := e, serviceHint := spanHint s e }]
    | none =>
    -- D) weekends / weekday ranges / single weekday
    match firstMatch true pWkndRx normCs with
    | some (_, (isNext, isLong), _) =>
      let fri := if isNext then nextWeekday refMs 5 else thisOrNextWeekday refMs 5
      let start := setHM fri 17 0
      let endBase := jsAddDays fri (if isLong then 3 else 2)
      let e := setHM endBase 17 0
      [{ startAt := start, endAt := e, serviceHint := spanHint start e }]
    | none =>
    match firstMatch true pWdRangeRx normCs with
    | some (_, (a, b), _) =>
      let startW := thisOrNextWeekday refMs a
      let endW0 := thisOrNextWeekday startW b
      let endW := if endW0 ≤ startW then jsAddDays endW0 7 else endW0
      let s := setHM startW (tSh.getD 9) (tSmin.getD 0)
      let e := setHM endW (tEh.getD 17) (tEmin.getD 0)
      [{ startAt := s, endAt := e, serviceHint := spanHint s e }]
    | none =>
    match firstMatch true pSingleWdRx normCs with
    | some (_, (isNext, wd), _) =>
      let day := if isNext then nextWeekday refMs wd else thisOrNextWeekday refMs wd
      let s := setHM day (tSh.getD 9) (tSmin.getD 0)
      let e0 := setHM day (tEh.getD 17) (tEmin.getD 0)
      let e := if e0 ≤ s then jsSetHoursOnly e0 (getHours s + 8) else e0
      [{ startAt := s, endAt := e, serviceHint := spanHint s e }]
    | none =>
    -- E) holidays
    let holRes :=
      match firstMatch true pHolidayRx normCs with
      | some (idx, _, len) =>
        let key := lowerStr (String.mk (sliceChars normCs idx (idx + len)))
        match holidayStageDay refMs key with
        | some d =>
          let s := setHM d (tSh.getD 9) (tSmin.getD 0)
          let e0 := setHM d (tEh.getD 17) (tEmin.getD 0)
          let e := if e0 ≤ s then jsSetHoursOnly e0 (getHours s + 8) else e0
          some [{ startAt := s, endAt := e, serviceHint := spanHint s e : Seg }]
        | none => none
      | none => none
    match holRes with
    | some segs => segs
    | none =>
    -- F) nth weekend of month
    let wkendOfRes :=
      match firstMatch true pWkendOfRx normCs with
      | some (_, (n, mmOpt), _) =>
        match nthSaturday (getFullYear refMs) mmOpt n with
        | some sat =>
          let sun := jsAddDays sat 1
          let s := setHM sat 9 0
          let e := setHM sun 17 0
          some [{ startAt := s, endAt := e, serviceHint := spanHint s e : Seg }]
        | none => none
      | none => none
    match wkendOfRes with
    | some segs => segs
    | none =>
    -- G) this/next month, first of month
    let relMonthRes :=
      match firstMatch true pRelMonthRx normCs with
      | some (_, isNext, _) =>
        let base := if isNext then jsAddMonths1 refMs else refMs
        let yG := getFullYear base
        let mG := getMonth0 base
        match firstMatch true pMonthRangeRx normCs with
        | some (_, (d1, d2), _) =>
          let s := mkDT yG mG (d1 : Nat) tStart
          let e := rolloverFix s (mkDT yG mG (d2 : Nat) tEnd)
          some [{ startAt := s, endAt := e, serviceHint := spanHint s e : Seg }]
        | none =>
          let mDay :=
            match firstMatch true pOnTheRx normCs with
            | some r => some r.2.1
            | none => (firstMatch true pMonthDayRx normCs).map (fun (r : Nat × Nat × Nat) => r.2.1)
          match mDay with
          | some d =>
            let s := mkDT yG mG (d : Nat) tStart
            let e := rolloverFix s (mkDT yG mG (d : Nat) tEnd)
            some [{ startAt := s, endAt := e, serviceHint := spanHint s e : Seg }]
          | none => none
      | none => none
    match relMonthRes with
    | some segs => segs
    | none =>
    match firstMatch true pFirstOfRx normCs with
    | some (_, mmOpt, _) =>
      let mm := jsNum0 mmOpt
      let yy := yearInfer refMs mm 1
      let s := mkDT yy mm 1 tStart
      let e := mkDT yy mm 1 tEnd
      [{ startAt := s, endAt := e, serviceHint := spanHint s e }]
    | none =>
    -- H) fallback token scan (+ holiday-anchored bare ordinals)
    let toks0 := scanDateTokens (String.mk normCs) refMs
    let toks :=
      if toks0.isEmpty then
        match holidayContextMonth src refMs with
        | some anchor =>
          let ords := ((allMatches true pOrdinalRx normCs).map (fun (m : Nat × Nat × Nat) => m.2.1)).filter
            (fun d => 1 ≤ d && d ≤ 31)
          if ords.isEmpty then toks0
          else (List.range ords.length).map (fun i =>
            { mm := some anchor.2, dd := (ords.getD i 0 : Nat), yy := anchor.1, idx := i : Tok })
        | none => toks0
      else toks0
    if toks.isEmpty then []
    else
      let lowerCs := normCs.map asciiLower
      let conn := fun (a b : Tok) => connTest (sliceChars lowerCs a.idx (b.idx + 1))
      let startH := tSh.getD (dayPartToHour (leftPart.getD ""))
      let endH := tEh.getD (dayPartToHour (rightPart.getD ""))
      (pairUpTokens conn toks).map (fun (pr : Tok × Option Tok) =>
        let a := pr.1
        let startAt := mkDT a.yy (jsNum0 a.mm) a.dd (some (startH, tSmin.getD 0))
        let endAt0 :=
          match pr.2 with
          | some b => mkDT b.yy (jsNum0 b.mm) b.dd (some (endH, tEmin.getD 0))
          | none => mkDT a.yy (jsNum0 a.mm) a.dd (some (endH, tEmin.getD 0))
        let endAt := rolloverFix startAt endAt0
        { startAt := startAt, endAt := endAt, serviceHint := spanHint startAt endAt })

/-- `pickDateRange` (intake.js lines 795-798): the first segment plus the
source text. -/
def pickDateRange (text : String) (refMs : Int) : Option (Seg × String) :=
  (parseSegments text refMs).head?.map (fun s => (s, text))

/-- `/\b(overnight|board(?:ing)?|sleep(?:over)?)\b/` on the lowercased text. -/
def svcOvernightTest (t : List Char) : Bool :=
  (firstMatch true (do
    pAlt [pLitCI "overnight",
          do
            pLitCI "board"
            _ ← pOptG (pLitCI "ing")
            pure (),
          do
            pLitCI "sleep"
            _ ← pOptG (pLitCI "over")
            pure ()]
    pEndWB) t).isSome

/-- `/\b(day ?care|doggy ?day ?care|guard[eé]ria)\b/`. -/
def svcDaycareTest (t : List Char) : Bool :=
  (firstMatch true (do
    pAlt [do
            pLitCI "day"
            _ ← pOptG (pLitCS " ")
            pLitCI "care"
            pure (),
          do
            pLitCI "doggy"
            _ ← pOptG (pLitCS " ")
            pLitCI "day"
            _ ← pOptG (pLitCS " ")
            pLitCI "care"
            pure (),
          do
            pLitCI "guard"
            _ ← pChar (fun c => c == 'e' || c == 'é')
            pLitCI "ria"
            pure ()]
    pEndWB) t).isSome

/-- `/\b(drop[\s-]?in|check ?in|visita|visitar)\b/`. -/
def svcDropinTest (t : List Char) : Bool :=
  (firstMatch true (do
    pAlt [do
            pLitCI "drop"
            _ ← pOptG (pChar (fun c => isWS c || c == '-'))
            pLitCI "in"
            pure (),
          do
            pLitCI "check"
            _ ← pOptG (pLitCS " ")
            pLitCI "in"
            pure (),
          pLitCI "visita",
          pLitCI "visitar"]
    pEndWB) t).isSome

/-- `/\bwalk(?:er|ing)?\b/`. -/
def svcWalkTest (t : List Char) : Bool :=
  (firstMatch true (do
    pLitCI "walk"
    _ ← pOptG (pAlt [pLitCI "er", pLitCI "ing"])
    pEndWB) t).isSome

/-- `classifyService` (intake.js lines 800-813).  The implicit-duration branch
calls `pickDateRange(text)` whose reference instant defaults to the current
time, passed in here as `nowMs`. -/
def classifyService (text : String) (nowMs : Int) : String :=
  let t := (lowerStr text).toList
  if svcOvernightTest t then "Overnight"
  else if svcDaycareTest t then "Daycare"
  else if svcDropinTest t then "Drop-in"
  else if svcWalkTest t then "Walk"
  else
    match pickDateRange text nowMs with
    | some (seg, _) =>
      if 1 ≤ jsRoundDiv (seg.endAt - seg.startAt) msPerDay then "Overnight" else "Daycare"
    | none => "Unspecified"

/-! ## JSON serialization helpers (JSON.stringify on the shapes the source
stores; braces are written via escapes) -/

def jsonEscape (s : String) : String :=
  String.join (s.toList.map (fun c =>
    if c == '"' then "\\\""
    else if c == '\\' then "\\\\"
    else if c == '\n' then "\\n"
    else if c == '\r' then "\\r"
    else if c == '\t' then "\\t"
    else String.singleton c))

def jsonQuote (s : String) : String := "\"" ++ jsonEscape s ++ "\""

def jsonStringArray (l : List String) : String :=
  "[" ++ String.intercalate "," (l.map jsonQuote) ++ "]"

/-- `serializeRange` (intake.js lines 826-833). -/
def serializeRange (r : Option (Seg × String)) : String :=
  match r with
  | none => "[]"
  | some (s, txt) =>
    "[" ++ "\x7b" ++ "\"startISO\":" ++ jsonQuote (msToISO s.startAt) ++
    ",\"endISO\":" ++ jsonQuote (msToISO s.endAt) ++
    ",\"text\":" ++ jsonQuote txt ++ "\x7d" ++ "]"

/-- The webhook's `extractedDatesJson` serialization (webhooks.js lines
447-452): `{startISO, endISO}` per segment. -/
def segmentsJson (segs : List Seg) : String :=
  "[" ++ String.intercalate "," (segs.map (fun s =>
    "\x7b" ++ "\"startISO\":" ++ jsonQuote (msToISO s.startAt) ++
    ",\"endISO\":" ++ jsonQuote (msToISO s.endAt) ++ "\x7d")) ++ "]"

/-! ## buildEID (src/services/utils/eid.js)

The source feeds the canonical string `raw` to `crypto.createHash('sha256')`
and returns the hex digest.  A cryptographic digest is a pure function of its
input, so every equality between EIDs proved below for the canonical string
also holds for the hashed EIDs of the real system; we therefore model the EID
by the canonical string itself. -/

structure EidFields where
  platform : Option String
  threadId : Option String
  providerMessageId : Option String
  fromAddr : Option String
  body : Option String
  timestamp : Option Int
deriving DecidableEq, Repr

/-- JS truthiness of a nullable string. -/
def truthyS (x : Option String) : Bool :=
  match x with
  | some s => s ≠ ""
  | none => false

/-- `` `${timestamp || ''}` `` for a nullable numeric timestamp. -/
def tsStr (x : Option Int) : String :=
  match x with
  | some t => if t = 0 then "" else toString t
  | none => ""

/-- `buildEID` (eid.js; also shown at rover.js dump lines 317-322): prefer
`platform::threadId::providerMessageId` when all three are truthy, else fall
back to `platform::from::timestamp::body.slice(0,120)`. -/
def buildEID (f : EidFields) : String :=
  if truthyS f.platform && truthyS f.threadId && truthyS f.providerMessageId then
    (f.platform.getD "") ++ "::" ++ (f.threadId.getD "") ++ "::" ++
      (f.providerMessageId.getD "")
  else
    jsOrOS f.platform "sms" ++ "::" ++ (f.fromAddr.getD "") ++ "::" ++
      tsStr f.timestamp ++ "::" ++ ((f.body.getD "").take 120)

/-! ## The record store (the Prisma collaborator of §6 of the spec)

Records carry the fields the webhook reads and writes.  Identifiers are
allocated from per-table counters; `createdAt` is a strictly increasing
logical clock (Prisma fills it with the row-creation time, and the handler's
awaits are sequential). -/

structure Booking where
  id : Nat
  source : String
  clientName : String
  clientPhone : String
  roverRelay : Option String
  serviceType : String
  startAt : Int
  endAt : Int
  status : String
  notes : String
  createdAt : Int
  petIds : List Nat
deriving DecidableEq, Repr

structure Message where
  id : Nat
  eid : String
  platform : String
  threadId : String
  providerMessageId : Option String
  fromPhone : String
  direction : String
  channel : String
  fromLabel : String
  body : String
  isRead : Bool
  isBookingCandidate : Bool
  extractedKeywordsJson : String
  extractedDatesJson : String
  classifyLabel : Option String
  classifyScore : Option Int
  extractedJson : Option String
  bookingId : Option Nat
  createdAt : Int
deriving DecidableEq, Repr

structure Pet where
  id : Nat
  name : String
  ageMonths : Option Int
  weightLbs : Option Int
deriving DecidableEq, Repr

structure DB where
  messages : List Message
  bookings : List Booking
  pets : List Pet
  nextMessageId : Nat
  nextBookingId : Nat
  nextPetId : Nat
  clock : Int
deriving DecidableEq, Repr

def emptyDB : DB :=
  { messages := [], bookings := [], pets := [],
    nextMessageId := 0, nextBookingId := 0, nextPetId := 0, clock := 0 }

/-- `prisma.message.findUnique({ where: { eid } })`. -/
def findMessageByEid (db : DB) (eid : String) : Option Message :=
  db.messages.find? (fun m => m.eid == eid)

/-- `prisma.booking.findUnique({ where: { id } })` / lookup by id. -/
def lookupBooking (db : DB) (id : Nat) : Option Booking :=
  db.bookings.find? (fun b => b.id == id)

/-- `prisma.booking.update({ where: { id }, data: … })`: rewrite the rows with
that id. -/
def updateBookingDB (db : DB) (id : Nat) (f : Booking → Booking) : DB :=
  { db with bookings := db.bookings.map (fun b => if b.id == id then f b else b) }

/-- `prisma.booking.findFirst` of the webhook segment loop (webhooks.js lines
372-381): same sender by phone or relay, `startAt` within ±2 days of the
segment start, ordered by `createdAt` descending.  Returns the match with the
greatest `createdAt` (the logical clock is strictly increasing, so ties do not
arise in reachable stores). -/
def findBookingNear (db : DB) (fromAddr : String) (segStart : Int) : Option Booking :=
  let lo := segStart - 2 * 24 * 60 * 60 * 1000
  let hi := segStart + 2 * 24 * 60 * 60 * 1000
  let cands := db.bookings.filter (fun b =>
    (b.clientPhone == fromAddr || b.roverRelay == some fromAddr) &&
    lo ≤ b.startAt && b.startAt ≤ hi)
  cands.foldl (fun acc b =>
    match acc with
    | none => some b
    | some cur => if cur.createdAt < b.createdAt then some b else some cur) none

/-- `prisma.message.update({ where: { id }, data: … })`. -/
def updateMessageDB (db : DB) (id : Nat) (f : Message → Message) : DB :=
  { db with messages := db.messages.map (fun m => if m.id == id then f m else m) }

/-- `x || null` on a nullable number (`0` is falsy). -/
def jsOrNullInt (x : Option Int) : Option Int :=
  match x with
  | some v => if v = 0 then none else some v
  | none => none

/-- The patch applied by the webhook to a matched non-CANCELED booking
(webhooks.js lines 397-411): fill `serviceType` only when it was Unspecified;
refresh both dates when either differs from the segment by more than 60
seconds.  There is no status guard: PENDING and CONFIRMED bookings are
patched alike. -/
def webhookPatchBooking (b : Booking) (inferredSvc : String) (seg : Seg) : Booking :=
  let svcPatch := jsOrS b.serviceType "Unspecified" == "Unspecified" &&
    inferredSvc != "Unspecified"
  let needDates := 60 * 1000 < jsAbs (b.startAt - seg.startAt) ||
    60 * 1000 < jsAbs (b.endAt - seg.endAt)
  { b with
    serviceType := if svcPatch then inferredSvc else b.serviceType,
    startAt := if needDates then seg.startAt else b.startAt,
    endAt := if needDates then seg.endAt else b.endAt }

/-- The pet attach loop of the webhook (webhooks.js lines 415-440): for each
candidate name, if no pet of that name is linked to the booking, create one
and connect it. -/
def petStep (db : DB) (bid : Nat) (meta : RoverMeta) : List String → DB
  | [] => db
  | name :: rest =>
    match db.pets.find? (fun pt =>
      pt.name == name &&
      ((lookupBooking db bid).map (fun bb => bb.petIds.contains pt.id)).getD false) with
    | some _ => petStep db bid meta rest
    | none =>
      let pet : Pet := { id := db.nextPetId, name := name,
                         ageMonths := jsOrNullInt meta.petAgeMonths,
                         weightLbs := jsOrNullInt meta.petWeightLbs }
      let db1 := { db with pets := pet :: db.pets, nextPetId := db.nextPetId + 1 }
      let db2 := updateBookingDB db1 bid (fun bb => { bb with petIds := bb.petIds ++ [pet.id] })
      petStep db2 bid meta rest

/-- The fresh booking the webhook creates for a segment (webhooks.js lines
384-396). -/
def freshBookingFor (db : DB) (fromAddr body : String) (meta : RoverMeta)
    (inferredSvc : String) (seg : Seg) : Booking :=
  { id := db.nextBookingId,
    source := if containsSubstr body "r.rover.com" then "Rover" else "SMS",
    clientName := jsOrOS meta.ownerName fromAddr,
    clientPhone := fromAddr,
    roverRelay := if containsSubstr fromAddr "r.rover.com" then some fromAddr else none,
    serviceType := inferredSvc,
    startAt := seg.startAt, endAt := seg.endAt,
    status := "PENDING",
    notes := "Created from SMS (filtered booking candidate)",
    createdAt := db.clock, petIds := [] }

/-- The create path of the segment loop: insert the fresh PENDING booking and
run pet attachment against it. -/
def processSegmentCreate (db : DB) (fromAddr body : String) (meta : RoverMeta)
    (inferredSvc : String) (seg : Seg) (names : List String) : DB × Nat :=
  let nb := freshBookingFor db fromAddr body meta inferredSvc seg
  let db1 := { db with
    bookings := nb :: db.bookings,
    nextBookingId := db.nextBookingId + 1, clock := db.clock + 1 }
  (petStep db1 nb.id meta names, nb.id)

/-- The patch path of the segment loop: apply `webhookPatchBooking` to the
matched booking and run pet attachment against it. -/
def processSegmentPatch (db : DB) (b : Booking) (inferredSvc : String) (seg : Seg)
    (meta : RoverMeta) (names : List String) : DB × Nat :=
  let b2 := webhookPatchBooking b inferredSvc seg
  let db1 := updateBookingDB db b.id (fun _ => b2)
  (petStep db1 b.id meta names, b.id)

/-- The pet-name candidates of one segment iteration (webhooks.js lines
416-419). -/
def petCandidatesOf (body : String) (meta : RoverMeta) : List String :=
  dedupFirst ((extractPetNames body ++
    (match meta.petName with | some n => [n] | none => [])).filter (fun n => n ≠ ""))

/-- One iteration of the webhook's per-segment loop (webhooks.js lines
367-443): find-or-create the booking for this segment — a missing or CANCELED
match takes the create path, never resurrecting the CANCELED booking — then
best-effort pet attachment.  Returns the booking id the segment resolved to. -/
def processSegment (db : DB) (fromAddr body svcGuess : String) (meta : RoverMeta)
    (seg : Seg) : DB × Nat :=
  let inferredSvc := if svcGuess ≠ "Unspecified" then svcGuess
    else jsOrS seg.serviceHint "Unspecified"
  let names := petCandidatesOf body meta
  match findBookingNear db fromAddr seg.startAt with
  | some b =>
    if b.status == "CANCELED" then
      processSegmentCreate db fromAddr body meta inferredSvc seg names
    else
      processSegmentPatch db b inferredSvc seg meta names
  | none => processSegmentCreate db fromAddr body meta inferredSvc seg names

/-- The webhook's `for (let idx = 0; …)` loop over segments: the inbound
message is attached to the FIRST segment's booking. -/
def processSegmentsAux (fromAddr body svcGuess : String) (meta : RoverMeta) :
    DB → Option Nat → Bool → List Seg → DB × Option Nat
  | db, acc, _, [] => (db, acc)
  | db, acc, isFirst, seg :: rest =>
    let r := processSegment db fromAddr body svcGuess meta seg
    processSegmentsAux fromAddr body svcGuess meta r.1
      (if isFirst then some r.2 else acc) false rest

def processSegments (db : DB) (fromAddr body svcGuess : String) (meta : RoverMeta)
    (segs : List Seg) : DB × Option Nat :=
  processSegmentsAux fromAddr body svcGuess meta db none true segs

/-- The webhook payload after body parsing: sender, raw body text, and the
numeric timestamp (`Number(timestamp)`; `0` models an absent or non-numeric
value, which is falsy). -/
structure Payload where
  fromAddr : String
  body : String
  timestamp : Int
deriving DecidableEq, Repr

/-- The structured webhook response (the JSON bodies of webhooks.js lines 325,
338, 482). -/
inductive SmsResp where
  | missingFields
  | deduped (bookingId : Option Nat) (eid : String)
  | result (bookingId : Option Nat) (eid : String) (candidate : Bool)
deriving DecidableEq, Repr

/-- The advisory AI oracle result `classifyMessage(body)`: `none` models the
caught failure path; scores are modelled as integers (no claim reads them). -/
def OracleRes : Type := Option (Option String × Option Int × Option String)

/-- The strict candidate gate of the webhook (webhooks.js lines 358-360):
keywords AND at least one segment AND not a Walk-only classification. -/
def isCandidateOf (now receivedAt : Int) (p : Payload) : Bool :=
  !(findKeywords p.body).isEmpty && !(parseSegments p.body receivedAt).isEmpty &&
  !(classifyService p.body now == "Walk")

/-- The booking work of the webhook: the segment loop when the message is a
candidate, nothing otherwise.  Returns the store and the booking id the
message will attach to. -/
def candidateStep (db : DB) (now receivedAt : Int) (p : Payload) : DB × Option Nat :=
  if isCandidateOf now receivedAt p then
    processSegments db p.fromAddr p.body (classifyService p.body now)
      (extractRoverMeta p.body) (parseSegments p.body receivedAt)
  else (db, none)

/-- The inbound Message row the webhook persists (webhooks.js lines 454-474). -/
def freshMessageOf (db1 : DB) (p : Payload) (eid : String) (oracle : OracleRes)
    (now receivedAt : Int) (bookingId : Option Nat) : Message :=
  { id := db1.nextMessageId, eid := eid, platform := "sms", threadId := p.fromAddr,
    providerMessageId := none, fromPhone := p.fromAddr, direction := "IN",
    channel := "SMS", fromLabel := jsOrOS (extractRoverMeta p.body).ownerName p.fromAddr,
    body := p.body.take 2000, isRead := false,
    isBookingCandidate := isCandidateOf now receivedAt p,
    extractedKeywordsJson := jsonStringArray (findKeywords p.body),
    extractedDatesJson := segmentsJson (parseSegments p.body receivedAt),
    classifyLabel := oracle.bind (fun o => o.1),
    classifyScore := oracle.bind (fun o => o.2.1),
    extractedJson := oracle.bind (fun o => o.2.2),
    bookingId := bookingId, createdAt := db1.clock }

/-- The non-deduplicated path of the webhook: booking work, then persist the
inbound Message. -/
def smsForwardFresh (db : DB) (now receivedAt : Int) (oracle : OracleRes)
    (p : Payload) (eid : String) : SmsResp × DB :=
  let step := candidateStep db now receivedAt p
  let msg := freshMessageOf step.1 p eid oracle now receivedAt step.2
  let db2 := { step.1 with
    messages := msg :: step.1.messages,
    nextMessageId := step.1.nextMessageId + 1, clock := step.1.clock + 1 }
  (.result step.2 eid (isCandidateOf now receivedAt p), db2)

/-- The `POST /sms-forward` handler (webhooks.js lines 306-487, final
revision), modelled after authentication and payload extraction as a pure
transformer of the record store.  `now` is the server clock (used when the
payload has no timestamp, and as the default reference instant of
`classifyService`); push notifications are fire-and-forget and carry no store
effect. -/
def smsForward (db : DB) (now : Int) (oracle : OracleRes) (p : Payload) :
    SmsResp × DB :=
  if p.fromAddr = "" ∨ p.body = "" then (.missingFields, db)
  else
    let receivedAt := if p.timestamp ≠ 0 then p.timestamp else now
    let eid := buildEID
      { platform := some "sms", threadId := some p.fromAddr, providerMessageId := none,
        fromAddr := some p.fromAddr, body := some p.body, timestamp := some receivedAt }
    match findMessageByEid db eid with
    | some m => (.deduped m.bookingId eid, db)
    | none => smsForwardFresh db now receivedAt oracle p eid

/-! ## reparseAll (intake.js lines 844-914) -/

/-- Whether the reparse patch has any keys for a PENDING booking. -/
def reparsePatchKeys (b : Booking) (body : String) (seg : Seg) (nowMs : Int) : Bool :=
  (jsOrS b.serviceType "Unspecified" == "Unspecified" &&
    classifyService body nowMs != "Unspecified") ||
  (60000 < jsAbs (b.startAt - seg.startAt) || 60000 < jsAbs (b.endAt - seg.endAt))

/-- The booking patch of `reparseAll` (intake.js lines 884-909), applied only
while the booking is still PENDING: fill `serviceType` if Unspecified and the
classifier can now infer one; refresh the dates when they differ from the
reparsed range by more than one minute (the `Number.isFinite` guards always
hold for valid stored dates). -/
def reparseBookingPatch (b : Booking) (body : String) (seg : Seg) (nowMs : Int) : Booking :=
  let svc := classifyService body nowMs
  let svcPatch := jsOrS b.serviceType "Unspecified" == "Unspecified" && svc != "Unspecified"
  let needDates := 60000 < jsAbs (b.startAt - seg.startAt) ||
    60000 < jsAbs (b.endAt - seg.endAt)
  { b with
    serviceType := if svcPatch then svc else b.serviceType,
    startAt := if needDates then seg.startAt else b.startAt,
    endAt := if needDates then seg.endAt else b.endAt }

/-- One iteration of the `reparseAll` message loop: refresh the message's
extracted fields, then gently patch its attached booking when that booking is
still PENDING.  Returns the store and whether a booking was touched. -/
def reparseMessageStep (db : DB) (nowMs : Int) (m : Message) : DB × Bool :=
  let body := m.body
  let receivedAt := if m.createdAt ≠ 0 then m.createdAt else nowMs
  let keywords := findKeywords body
  let range := pickDateRange body receivedAt
  let isCandidate := range.isSome || !keywords.isEmpty
  let db1 := updateMessageDB db m.id (fun mm =>
    { mm with
      isBookingCandidate := isCandidate,
      extractedKeywordsJson := jsonStringArray keywords,
      extractedDatesJson := serializeRange range })
  if isCandidate then
    match m.bookingId, range with
    | some bid, some (seg, _) =>
      match lookupBooking db1 bid with
      | some b =>
        if b.status == "PENDING" then
          if reparsePatchKeys b body seg nowMs then
            (updateBookingDB db1 bid (fun _ => reparseBookingPatch b body seg nowMs), true)
          else (db1, false)
        else (db1, false)
      | none => (db1, false)
    | _, _ => (db1, false)
  else (db1, false)

def insertByCreated (m : Message) : List Message → List Message
  | [] => [m]
  | u :: us => if u.createdAt ≤ m.createdAt then u :: insertByCreated m us else m :: u :: us

def sortByCreated (l : List Message) : List Message :=
  l.foldl (fun acc m => insertByCreated m acc) []

/-- `reparseAll` (intake.js lines 844-914): re-run extraction over recent
inbound SMS messages in `createdAt` order, using each message's original
`createdAt` as the reference instant.  Returns the store and the
(scanned, updated, touchedBookings) counts. -/
def reparseAll (db : DB) (nowMs : Int) (days limit : Nat) : DB × Nat × Nat × Nat :=
  let since := nowMs - (days : Int) * 24 * 60 * 60 * 1000
  let msgs := (sortByCreated (db.messages.filter (fun m =>
    m.direction == "IN" && m.channel == "SMS" && since ≤ m.createdAt))).take limit
  let r := msgs.foldl (fun (acc : DB × Nat × Nat) m =>
    let s := reparseMessageStep acc.1 nowMs m
    (s.1, acc.2.1 + 1, acc.2.2 + (if s.2 then 1 else 0))) (db, 0, 0)
  (r.1, msgs.length, r.2.1, r.2.2)

/-! ## Derived definitions used by the verification statements -/

/-- The EID the webhook computes for a payload whose timestamp is present
(nonzero): independent of the server clock. -/
def payloadEid (p : Payload) : String :=
  buildEID
    { platform := some "sms", threadId := some p.fromAddr, providerMessageId := none,
      fromAddr := some p.fromAddr, body := some p.body, timestamp := some p.timestamp }

/-- Wellformedness of the record store: booking ids are below the allocation
counter and pairwise distinct (Prisma ids are unique primary keys). -/
def DBwf (db : DB) : Prop :=
  (∀ b ∈ db.bookings, b.id < db.nextBookingId) ∧ (db.bookings.map Booking.id).Nodup

instance : DecidablePred DBwf := fun db => by
  unfold DBwf
  infer_instance

/-! ### Shared concrete fixtures -/

/-- Reference instant 2025-01-05T00:00 local. -/
def refJan5 : Int := jsDateMs 2025 0 5 0 0

/-- Reference instant 2025-11-01T00:00 local. -/
def refNov1 : Int := jsDateMs 2025 10 1 0 0

def examplePhone : String := "+15551234567"

/-- A stored CONFIRMED booking for the example sender, Nov 8 17:00 to
Nov 10 17:00, 2025. -/
def exampleConfirmedBooking : Booking where
  id := 0
  source := "SMS"
  clientName := "Ana"
  clientPhone := "+15551234567"
  roverRelay := none
  serviceType := "Overnight"
  startAt := jsDateMs 2025 10 8 17 0
  endAt := jsDateMs 2025 10 10 17 0
  status := "CONFIRMED"
  notes := ""
  createdAt := 0
  petIds := []

def exampleCanceledBooking : Booking :=
  { exampleConfirmedBooking with status := "CANCELED" }

def exampleConfirmedDB : DB :=
  { emptyDB with bookings := [exampleConfirmedBooking], nextBookingId := 1, clock := 1 }

def exampleCanceledDB : DB :=
  { emptyDB with bookings := [exampleCanceledBooking], nextBookingId := 1, clock := 1 }

/-- A candidate payload with one extracted segment (Nov 7 2025). -/
def oneSegPayload : Payload :=
  { fromAddr := "+15551234567", body := "board 11/7", timestamp := refNov1 }

/-- A candidate payload whose fallback scan yields two far-apart segments. -/
def twoSegPayload : Payload :=
  { fromAddr := "+15551234567", body := "board 11/7 and 12/24", timestamp := refNov1 }

/-- A stored inbound SMS message linked to booking 0. -/
def exampleMessage : Message :=
  { id := 0, eid := "e0", platform := "sms", threadId := "+15551234567",
    providerMessageId := none, fromPhone := "+15551234567", direction := "IN",
    channel := "SMS", fromLabel := "Ana", body := "board 11/7", isRead := false,
    isBookingCandidate := true, extractedKeywordsJson := "[]",
    extractedDatesJson := "[]", classifyLabel := none, classifyScore := none,
    extractedJson := none, bookingId := some 0, createdAt := 1 }

/-- A segment whose start lies within two days of the example booking's start
(so the webhook's ±2-day window matches the stored booking). -/
def exampleSeg : Seg :=
  { startAt := jsDateMs 2025 10 7 17 0, endAt := jsDateMs 2025 10 8 9 0, serviceHint := "" }

/-- The year-assignment rule as worded by the specification: assume the
reference instant's calendar year unless the resulting date falls more than
7 days before the reference instant, in which case assign the following year.
Stated from the spec's words, to be compared with `yearInfer` (the source). -/
def specYearAssign (refMs mm dd : Int) : Int :=
  let y := getFullYear refMs
  if 7 * 24 * 60 * 60 * 1000 < refMs - jsDateMs y mm dd 0 0 then y + 1 else y

/-- 121 copies of "a". -/
def longBodyA : String := String.mk (List.replicate 121 'a')

/-- 120 copies of "a" followed by "b": agrees with `longBodyA` on the first
120 characters, differs at index 120. -/
def longBodyB : String := String.mk (List.replicate 120 'a') ++ "b"

/-- A webhook payload whose body is `longBodyA`. -/
def longPayloadA : Payload :=
  { fromAddr := "+15551234567", body := longBodyA, timestamp := refNov1 }

/-- A webhook payload identical to `longPayloadA` except beyond the 120th body
character. -/
def longPayloadB : Payload :=
  { fromAddr := "+15551234567", body := longBodyB, timestamp := refNov1 }

/-! ## Helper lemmas -/

theorem updateBookingDB_messages (db : DB) (id : Nat) (f : Booking → Booking) :
    (updateBookingDB db id f).messages = db.messages := rfl

theorem petStep_messages (bid : Nat) (meta : RoverMeta) :
    ∀ (names : List String) (db : DB), (petStep db bid meta names).messages = db.messages
  | [], _ => rfl
  | name :: rest, db => by
    unfold petStep
    split
    · exact petStep_messages bid meta rest db
    · rw [petStep_messages bid meta rest]
      rfl

theorem processSegmentCreate_messages (db : DB) (fromAddr body : String)
    (meta : RoverMeta) (inferredSvc : String) (seg : Seg) (names : List String) :
    (processSegmentCreate db fromAddr body meta inferredSvc seg names).1.messages =
      db.messages := by
  unfold processSegmentCreate
  rw [petStep_messages]

theorem processSegmentPatch_messages (db : DB) (b : Booking) (inferredSvc : String)
    (seg : Seg) (meta : RoverMeta) (names : List String) :
    (processSegmentPatch db b inferredSvc seg meta names).1.messages = db.messages := by
  unfold processSegmentPatch
  rw [petStep_messages, updateBookingDB_messages]

theorem processSegment_messages (db : DB) (fromAddr body svcGuess : String)
    (meta : RoverMeta) (seg : Seg) :
    (processSegment db fromAddr body svcGuess meta seg).1.messages = db.messages := by
  unfold processSegment
  cases h : findBookingNear db fromAddr seg.startAt with
  | some b =>
    by_cases hc : b.status == "CANCELED" <;>
      simp [hc, processSegmentCreate_messages, processSegmentPatch_messages]
  | none => simp [processSegmentCreate_messages]

theorem processSegmentsAux_messages (fromAddr body svcGuess : String) (meta : RoverMeta) :
    ∀ (segs : List Seg) (db : DB) (acc : Option Nat) (isFirst : Bool),
      (processSegmentsAux fromAddr body svcGuess meta db acc isFirst segs).1.messages =
        db.messages
  | [], _, _, _ => rfl
  | seg :: rest, db, acc, isFirst => by
    unfold processSegmentsAux
    rw [processSegmentsAux_messages fromAddr body svcGuess meta rest]
    exact processSegment_messages db fromAddr body svcGuess meta seg

theorem processSegments_messages (db : DB) (fromAddr body svcGuess : String)
    (meta : RoverMeta) (segs : List Seg) :
    (processSegments db fromAddr body svcGuess meta segs).1.messages = db.messages :=
  processSegmentsAux_messages fromAddr body svcGuess meta segs db none true

theorem candidateStep_messages (db : DB) (now receivedAt : Int) (p : Payload) :
    (candidateStep db now receivedAt p).1.messages = db.messages := by
  unfold candidateStep
  split
  · exact processSegments_messages db p.fromAddr p.body (classifyService p.body now)
      (extractRoverMeta p.body) (parseSegments p.body receivedAt)
  · rfl

theorem smsForward_dedup (db : DB) (now : Int) (o : OracleRes) (p : Payload)
    (m : Message)
    (hguard : ¬(p.fromAddr = "" ∨ p.body = ""))
    (ht : p.timestamp ≠ 0)
    (hm : findMessageByEid db (payloadEid p) = some m) :
    smsForward db now o p = (SmsResp.deduped m.bookingId (payloadEid p), db) := by
  have hm' : findMessageByEid db (buildEID
      { platform := some "sms", threadId := some p.fromAddr, providerMessageId := none,
        fromAddr := some p.fromAddr, body := some p.body,
        timestamp := some p.timestamp }) = some m := hm
  unfold smsForward
  rw [if_neg hguard, if_pos ht]
  simp only [hm']
  rfl

theorem smsForward_fresh (db : DB) (now : Int) (o : OracleRes) (p : Payload)
    (hguard : ¬(p.fromAddr = "" ∨ p.body = ""))
    (ht : p.timestamp ≠ 0)
    (hnew : findMessageByEid db (payloadEid p) = none) :
    ∃ msg : Message, (smsForward db now o p).2.messages = msg :: db.messages ∧
      msg.eid = payloadEid p := by
  have hnew' : findMessageByEid db (buildEID
      { platform := some "sms", threadId := some p.fromAddr, providerMessageId := none,
        fromAddr := some p.fromAddr, body := some p.body,
        timestamp := some p.timestamp }) = none := hnew
  unfold smsForward
  rw [if_neg hguard, if_pos ht]
  simp only [hnew']
  refine ⟨freshMessageOf (candidateStep db now p.timestamp p).1 p (payloadEid p) o now
    p.timestamp (candidateStep db now p.timestamp p).2, ?_, rfl⟩
  show _ :: (candidateStep db now p.timestamp p).1.messages = _ :: db.messages
  rw [candidateStep_messages]
  rfl

theorem findMessageByEid_of_head (db : DB) (msg : Message) (rest : List Message)
    (e : String) (hm : db.messages = msg :: rest) (he : msg.eid = e) :
    findMessageByEid db e = some msg := by
  unfold findMessageByEid
  rw [hm]
  simp [List.find?, he]

theorem countP_zero_of_find?_none {α : Type} (p : α → Bool) (l : List α)
    (h : l.find? p = none) : l.countP p = 0 := by
  rw [List.countP_eq_zero]
  exact List.find?_eq_none.mp h

/-- C1 (amended): delivering the same webhook payload (sender, body, nonzero
timestamp) twice leaves exactly one persisted Message carrying its EID; the
second delivery computes the same EID, finds the already-stored Message before
any write, reports deduped, and performs no record-store writes (the store is
unchanged).  The first delivery, however, creates one Booking per extracted
segment, so the pair of deliveries can leave more than one Booking — "at most
one Booking" holds only per segment, not per payload. -/
theorem claim1_idempotent_delivery (db : DB) (now1 now2 : Int) (o1 o2 : OracleRes)
    (p : Payload) (hf : p.fromAddr ≠ "") (hb : p.body ≠ "") (ht : p.timestamp ≠ 0)
    (hnew : findMessageByEid db (payloadEid p) = none) :
    (smsForward (smsForward db now1 o1 p).2 now2 o2 p).2 = (smsForward db now1 o1 p).2 ∧
    (∃ bid, (smsForward (smsForward db now1 o1 p).2 now2 o2 p).1 =
      SmsResp.deduped bid (payloadEid p)) ∧
    ((smsForward db now1 o1 p).2.messages.countP (fun m => m.eid == payloadEid p)) = 1 := by
  have hguard : ¬(p.fromAddr = "" ∨ p.body = "") := by
    rintro (h | h)
    · exact hf h
    · exact hb h
  obtain ⟨msg, hmsgs, heid⟩ := smsForward_fresh db now1 o1 p hguard ht hnew
  have hfind : findMessageByEid (smsForward db now1 o1 p).2 (payloadEid p) = some msg :=
    findMessageByEid_of_head _ msg db.messages _ hmsgs heid
  have hded := smsForward_dedup (smsForward db now1 o1 p).2 now2 o2 p msg hguard ht hfind
  refine ⟨by rw [hded], ⟨msg.bookingId, by rw [hded]⟩, ?_⟩
  rw [hmsgs, List.countP_cons]
  have h0 : db.messages.countP (fun m => m.eid == payloadEid p) = 0 :=
    countP_zero_of_find?_none _ _ hnew
  simp [h0, heid]

/-- C1 witness: the single-segment candidate payload delivered twice into an
empty store. -/
theorem claim1_witness :
    (smsForward (smsForward emptyDB refNov1 none oneSegPayload).2 (refNov1 + 1) none
        oneSegPayload).2 =
      (smsForward emptyDB refNov1 none oneSegPayload).2 ∧
    (∃ bid, (smsForward (smsForward emptyDB refNov1 none oneSegPayload).2 (refNov1 + 1) none
        oneSegPayload).1 = SmsResp.deduped bid (payloadEid oneSegPayload)) ∧
    (smsForward emptyDB refNov1 none oneSegPayload).2.messages.countP
      (fun m => m.eid == payloadEid oneSegPayload) = 1 :=
  claim1_idempotent_delivery emptyDB refNov1 (refNov1 + 1) none none oneSegPayload
    (by decide) (by decide) (by decide) rfl

/-- C1 counterexample to the claim as stated: the payload
"board 11/7 and 12/24" (two far-apart fallback segments) delivered twice
leaves ONE Message but TWO Bookings, refuting "at most one Booking". -/
theorem claim1_counterexample :
    (smsForward (smsForward emptyDB refNov1 none twoSegPayload).2 refNov1 none
        twoSegPayload).2.bookings.length = 2 ∧
    (smsForward (smsForward emptyDB refNov1 none twoSegPayload).2 refNov1 none
        twoSegPayload).2.messages.length = 1 := by
  constructor <;> rfl

theorem mem_updateBookingDB_of_ne (db : DB) (id : Nat) (f : Booking → Booking)
    (b : Booking) (hmem : b ∈ db.bookings) (hne : b.id ≠ id) :
    b ∈ (updateBookingDB db id f).bookings := by
  unfold updateBookingDB
  exact List.mem_map.mpr ⟨b, hmem, by simp [hne]⟩

theorem updateBookingDB_ids (db : DB) (id : Nat) (f : Booking → Booking)
    (hid : ∀ x : Booking, x.id = id → (f x).id = x.id) :
    (updateBookingDB db id f).bookings.map Booking.id = db.bookings.map Booking.id := by
  unfold updateBookingDB
  rw [List.map_map]
  apply List.map_congr_left
  intro a _
  by_cases h : a.id == id
  · simp only [Function.comp_apply, h, if_true]
    exact hid a (by simpa using h)
  · have h2 : ¬a.id = id := by simpa using h
    simp [h2]

theorem updateBookingDB_wf (db : DB) (id : Nat) (f : Booking → Booking)
    (hid : ∀ x : Booking, x.id = id → (f x).id = x.id) (hwf : DBwf db) :
    DBwf (updateBookingDB db id f) := by
  obtain ⟨hbound, hnodup⟩ := hwf
  constructor
  · intro b hb
    rcases List.mem_map.mp hb with ⟨a, ha, rfl⟩
    show (if a.id == id then f a else a).id < db.nextBookingId
    by_cases h : a.id == id
    · rw [if_pos h, hid a (by simpa using h)]
      exact hbound a ha
    · rw [if_neg h]
      exact hbound a ha
  · rw [show (updateBookingDB db id f).bookings.map Booking.id =
        db.bookings.map Booking.id from updateBookingDB_ids db id f hid]
    exact hnodup

theorem petStep_mem (bid : Nat) (meta : RoverMeta) :
    ∀ (names : List String) (db : DB) (b : Booking),
      b ∈ db.bookings → b.id ≠ bid → b ∈ (petStep db bid meta names).bookings
  | [], _, _, hmem, _ => hmem
  | name :: rest, db, b, hmem, hne => by
    unfold petStep
    split
    · exact petStep_mem bid meta rest db b hmem hne
    · exact petStep_mem bid meta rest _ b
        (mem_updateBookingDB_of_ne _ bid _ b hmem hne) hne

theorem petStep_wf (bid : Nat) (meta : RoverMeta) :
    ∀ (names : List String) (db : DB), DBwf db → DBwf (petStep db bid meta names)
  | [], _, hwf => hwf
  | name :: rest, db, hwf => by
    unfold petStep
    split
    · exact petStep_wf bid meta rest db hwf
    · refine petStep_wf bid meta rest _ (updateBookingDB_wf _ bid _ (fun x _ => rfl) ?_)
      exact hwf

/-- Every field other than `petIds` survives the pet-attachment loop: there is
a booking in the result agreeing with `x` on id, status, dates and service. -/
theorem petStep_exists_same (bid : Nat) (meta : RoverMeta) :
    ∀ (names : List String) (db : DB) (x : Booking), x ∈ db.bookings →
      ∃ y ∈ (petStep db bid meta names).bookings,
        y.id = x.id ∧ y.status = x.status ∧ y.startAt = x.startAt ∧
        y.endAt = x.endAt ∧ y.serviceType = x.serviceType
  | [], _, x, hx => ⟨x, hx, rfl, rfl, rfl, rfl, rfl⟩
  | name :: rest, db, x, hx => by
    unfold petStep
    split
    · exact petStep_exists_same bid meta rest db x hx
    · have hx2 : ∃ x2 ∈ (updateBookingDB ({ db with
          pets := { id := db.nextPetId, name := name,
                    ageMonths := jsOrNullInt meta.petAgeMonths,
                    weightLbs := jsOrNullInt meta.petWeightLbs } :: db.pets,
          nextPetId := db.nextPetId + 1 : DB }) bid
            (fun bb => { bb with petIds := bb.petIds ++ [db.nextPetId] })).bookings,
          x2.id = x.id ∧ x2.status = x.status ∧ x2.startAt = x.startAt ∧
          x2.endAt = x.endAt ∧ x2.serviceType = x.serviceType := by
        refine ⟨_, List.mem_map.mpr ⟨x, hx, rfl⟩, ?_⟩
        by_cases h : x.id == bid <;> simp [h]
      obtain ⟨x2, hx2m, hx2f⟩ := hx2
      obtain ⟨y, hy, hyf⟩ := petStep_exists_same bid meta rest _ x2 hx2m
      exact ⟨y, hy, hyf.1.trans hx2f.1, hyf.2.1.trans hx2f.2.1,
        hyf.2.2.1.trans hx2f.2.2.1, hyf.2.2.2.1.trans hx2f.2.2.2.1,
        hyf.2.2.2.2.trans hx2f.2.2.2.2⟩

theorem foldl_latest_mem :
    ∀ (l : List Booking) (acc : Option Booking) (c : Booking),
      l.foldl (fun acc b =>
        match acc with
        | none => some b
        | some cur => if cur.createdAt < b.createdAt then some b else some cur) acc =
          some c →
      c ∈ l ∨ acc = some c
  | [], acc, c, h => Or.inr h
  | b :: l, acc, c, h => by
    rcases foldl_latest_mem l _ c h with hmem | hacc
    · exact Or.inl (List.mem_cons_of_mem b hmem)
    · cases acc with
      | none =>
        have hbc : some b = some c := by simpa using hacc
        exact Or.inl (by rw [← Option.some_inj.mp hbc]; exact List.mem_cons_self b l)
      | some cur =>
        by_cases hlt : cur.createdAt < b.createdAt
        · have hbc : some b = some c := by simpa [hlt] using hacc
          exact Or.inl (by rw [← Option.some_inj.mp hbc]; exact List.mem_cons_self b l)
        · have hbc : some cur = some c := by simpa [hlt] using hacc
          exact Or.inr hbc

theorem findBookingNear_mem (db : DB) (fromAddr : String) (segStart : Int)
    (c : Booking) (h : findBookingNear db fromAddr segStart = some c) :
    c ∈ db.bookings := by
  unfold findBookingNear at h
  rcases foldl_latest_mem _ none c h with hmem | habs
  · exact List.mem_of_mem_filter hmem
  · cases habs

theorem processSegmentCreate_props (db : DB) (fromAddr body : String) (meta : RoverMeta)
    (inferredSvc : String) (seg : Seg) (names : List String) (b : Booking)
    (hwf : DBwf db) (hmem : b ∈ db.bookings) :
    b ∈ (processSegmentCreate db fromAddr body meta inferredSvc seg names).1.bookings ∧
    DBwf (processSegmentCreate db fromAddr body meta inferredSvc seg names).1 ∧
    (processSegmentCreate db fromAddr body meta inferredSvc seg names).2 =
      db.nextBookingId ∧
    (∃ nb ∈ (processSegmentCreate db fromAddr body meta inferredSvc seg names).1.bookings,
      nb.id = db.nextBookingId ∧ nb.status = "PENDING" ∧
      nb.startAt = seg.startAt ∧ nb.endAt = seg.endAt) := by
  obtain ⟨hbound, hnodup⟩ := hwf
  have hbid : b.id ≠ db.nextBookingId := Nat.ne_of_lt (hbound b hmem)
  have hdb1wf : DBwf { db with
      bookings := freshBookingFor db fromAddr body meta inferredSvc seg :: db.bookings,
      nextBookingId := db.nextBookingId + 1, clock := db.clock + 1 } := by
    constructor
    · intro x hx
      rcases List.mem_cons.mp hx with rfl | hx2
      · exact Nat.lt_succ_self _
      · exact Nat.lt_succ_of_lt (hbound x hx2)
    · rw [List.map_cons]
      refine List.Nodup.cons ?_ hnodup
      intro hin
      rcases List.mem_map.mp hin with ⟨y, hy, hyid⟩
      have hyid2 : y.id = db.nextBookingId := hyid
      exact absurd hyid2 (Nat.ne_of_lt (hbound y hy))
  refine ⟨?_, ?_, rfl, ?_⟩
  · exact petStep_mem _ meta names _ b (List.mem_cons_of_mem _ hmem) hbid
  · exact petStep_wf _ meta names _ hdb1wf
  · obtain ⟨y, hy, hyf⟩ := petStep_exists_same db.nextBookingId meta names
      { db with
        bookings := freshBookingFor db fromAddr body meta inferredSvc seg :: db.bookings,
        nextBookingId := db.nextBookingId + 1, clock := db.clock + 1 }
      (freshBookingFor db fromAddr body meta inferredSvc seg)
      (show freshBookingFor db fromAddr body meta inferredSvc seg ∈
        freshBookingFor db fromAddr body meta inferredSvc seg :: db.bookings from
        List.mem_cons_self _ _)
    exact ⟨y, hy, hyf.1, hyf.2.1, hyf.2.2.1, hyf.2.2.2.1⟩

theorem processSegmentPatch_props (db : DB) (c : Booking) (inferredSvc : String)
    (seg : Seg) (meta : RoverMeta) (names : List String) (b : Booking)
    (hwf : DBwf db) (hmem : b ∈ db.bookings) (hcmem : c ∈ db.bookings)
    (hne : b ≠ c) :
    b ∈ (processSegmentPatch db c inferredSvc seg meta names).1.bookings ∧
    DBwf (processSegmentPatch db c inferredSvc seg meta names).1 ∧
    (processSegmentPatch db c inferredSvc seg meta names).2 = c.id := by
  have hidne : b.id ≠ c.id := fun h =>
    hne (List.inj_on_of_nodup_map hwf.2 hmem hcmem h)
  refine ⟨?_, ?_, rfl⟩
  · exact petStep_mem _ meta names _ b
      (mem_updateBookingDB_of_ne db c.id _ b hmem hidne) hidne
  · refine petStep_wf _ meta names _ (updateBookingDB_wf db c.id _ ?_ hwf)
    intro x hx
    show (webhookPatchBooking c inferredSvc seg).id = x.id
    rw [show (webhookPatchBooking c inferredSvc seg).id = c.id from rfl, hx]

/-- A CANCELED booking survives one segment iteration untouched, the store
stays wellformed, and the iteration never resolves to the CANCELED booking's
id. -/
theorem processSegment_canceled (db : DB) (fromAddr body svcGuess : String)
    (meta : RoverMeta) (seg : Seg) (b : Booking)
    (hwf : DBwf db) (hmem : b ∈ db.bookings) (hc : b.status = "CANCELED") :
    b ∈ (processSegment db fromAddr body svcGuess meta seg).1.bookings ∧
    DBwf (processSegment db fromAddr body svcGuess meta seg).1 ∧
    (processSegment db fromAddr body svcGuess meta seg).2 ≠ b.id := by
  unfold processSegment
  cases hFind : findBookingNear db fromAddr seg.startAt with
  | none =>
    dsimp only
    obtain ⟨h1, h2, h3, _⟩ := processSegmentCreate_props db fromAddr body meta
      (if svcGuess ≠ "Unspecified" then svcGuess else jsOrS seg.serviceHint "Unspecified")
      seg (petCandidatesOf body meta) b hwf hmem
    exact ⟨h1, h2, by rw [h3]; exact (Nat.ne_of_lt (hwf.1 b hmem)).symm⟩
  | some c =>
    dsimp only
    by_cases hcs : c.status == "CANCELED"
    · rw [if_pos hcs]
      obtain ⟨h1, h2, h3, _⟩ := processSegmentCreate_props db fromAddr body meta
        (if svcGuess ≠ "Unspecified" then svcGuess else jsOrS seg.serviceHint "Unspecified")
        seg (petCandidatesOf body meta) b hwf hmem
      exact ⟨h1, h2, by rw [h3]; exact (Nat.ne_of_lt (hwf.1 b hmem)).symm⟩
    · rw [if_neg hcs]
      have hcmem : c ∈ db.bookings := findBookingNear_mem db fromAddr seg.startAt c hFind
      have hne : b ≠ c := by
        intro h
        apply hcs
        rw [← h, hc]
        rfl
      obtain ⟨h1, h2, h3⟩ := processSegmentPatch_props db c
        (if svcGuess ≠ "Unspecified" then svcGuess else jsOrS seg.serviceHint "Unspecified")
        seg meta (petCandidatesOf body meta) b hwf hmem hcmem hne
      refine ⟨h1, h2, ?_⟩
      rw [h3]
      intro h
      exact hne (List.inj_on_of_nodup_map hwf.2 hmem hcmem h.symm)

theorem processSegmentsAux_canceled (fromAddr body svcGuess : String) (meta : RoverMeta)
    (c : Booking) (hc : c.status = "CANCELED") :
    ∀ (segs : List Seg) (db : DB) (acc : Option Nat) (isFirst : Bool),
      DBwf db → c ∈ db.bookings → (∀ k, acc = some k → k ≠ c.id) →
      c ∈ (processSegmentsAux fromAddr body svcGuess meta db acc isFirst segs).1.bookings ∧
      DBwf (processSegmentsAux fromAddr body svcGuess meta db acc isFirst segs).1 ∧
      (∀ k, (processSegmentsAux fromAddr body svcGuess meta db acc isFirst segs).2 = some k →
        k ≠ c.id)
  | [], _, _, _, hwf, hmem, hacc => ⟨hmem, hwf, hacc⟩
  | seg :: rest, db, acc, isFirst, hwf, hmem, hacc => by
    unfold processSegmentsAux
    obtain ⟨h1, h2, h3⟩ :=
      processSegment_canceled db fromAddr body svcGuess meta seg c hwf hmem hc
    have haccNew : ∀ k,
        (if isFirst then some (processSegment db fromAddr body svcGuess meta seg).2
          else acc) = some k → k ≠ c.id := by
      intro k hk
      cases isFirst with
      | true =>
        have hkk : (processSegment db fromAddr body svcGuess meta seg).2 = k :=
          Option.some_inj.mp (by simpa using hk)
        exact hkk ▸ h3
      | false =>
        exact hacc k (by simpa using hk)
    exact processSegmentsAux_canceled fromAddr body svcGuess meta c hc rest
      (processSegment db fromAddr body svcGuess meta seg).1
      (if isFirst then some (processSegment db fromAddr body svcGuess meta seg).2 else acc)
      false h2 h1 haccNew

theorem candidateStep_canceled (db : DB) (now receivedAt : Int) (p : Payload)
    (c : Booking) (hwf : DBwf db) (hcm : c ∈ db.bookings) (hc : c.status = "CANCELED") :
    c ∈ (candidateStep db now receivedAt p).1.bookings ∧
    DBwf (candidateStep db now receivedAt p).1 ∧
    (∀ k, (candidateStep db now receivedAt p).2 = some k → k ≠ c.id) := by
  unfold candidateStep
  split
  · exact processSegmentsAux_canceled p.fromAddr p.body (classifyService p.body now)
      (extractRoverMeta p.body) c hc (parseSegments p.body receivedAt) db none true
      hwf hcm (fun k hk => by cases hk)
  · exact ⟨hcm, hwf, fun k hk => by cases hk⟩

/-- A CANCELED booking survives the whole webhook untouched: on the fresh
(non-deduplicated) path the store stays wellformed, the CANCELED record is
still present byte-identical, and the single persisted Message is never linked
to its id. -/
theorem smsForward_canceled (db : DB) (now : Int) (o : OracleRes) (p : Payload)
    (c : Booking)
    (hwf : DBwf db) (hcm : c ∈ db.bookings) (hc : c.status = "CANCELED")
    (hguard : ¬(p.fromAddr = "" ∨ p.body = ""))
    (ht : p.timestamp ≠ 0)
    (hnew : findMessageByEid db (payloadEid p) = none) :
    c ∈ (smsForward db now o p).2.bookings ∧
    DBwf (smsForward db now o p).2 ∧
    ∃ msg : Message, (smsForward db now o p).2.messages = msg :: db.messages ∧
      msg.bookingId ≠ some c.id := by
  have hnew' : findMessageByEid db (buildEID
      { platform := some "sms", threadId := some p.fromAddr, providerMessageId := none,
        fromAddr := some p.fromAddr, body := some p.body,
        timestamp := some p.timestamp }) = none := hnew
  obtain ⟨h1, h2, h3⟩ := candidateStep_canceled db now p.timestamp p c hwf hcm hc
  unfold smsForward
  rw [if_neg hguard, if_pos ht]
  simp only [hnew']
  refine ⟨h1, h2, freshMessageOf (candidateStep db now p.timestamp p).1 p (payloadEid p)
    o now p.timestamp (candidateStep db now p.timestamp p).2, ?_, ?_⟩
  · show _ :: (candidateStep db now p.timestamp p).1.messages = _ :: db.messages
    rw [candidateStep_messages]
    rfl
  · show (candidateStep db now p.timestamp p).2 ≠ some c.id
    intro heq
    exact h3 c.id heq rfl

/-- C3: when the most recent matched booking for a segment is CANCELED, the
segment loop creates a fresh Booking with status PENDING carrying the
segment's dates and resolves to the NEW id, while the CANCELED record stays in
the store byte-identical; and across a whole fresh webhook delivery the
CANCELED booking is never updated, the store stays wellformed, and the
persisted Message is never linked to the CANCELED booking's id. -/
theorem claim3_canceled_never_revived
    (db : DB) (fromAddr body svcGuess : String) (meta : RoverMeta) (seg : Seg)
    (now : Int) (o : OracleRes) (p : Payload) (c : Booking)
    (hwf : DBwf db) (hcm : c ∈ db.bookings) (hc : c.status = "CANCELED")
    (hFind : findBookingNear db fromAddr seg.startAt = some c)
    (hf : p.fromAddr ≠ "") (hb : p.body ≠ "") (ht : p.timestamp ≠ 0)
    (hnew : findMessageByEid db (payloadEid p) = none) :
    (c ∈ (processSegment db fromAddr body svcGuess meta seg).1.bookings ∧
      (∃ nb ∈ (processSegment db fromAddr body svcGuess meta seg).1.bookings,
        nb.id = db.nextBookingId ∧ nb.status = "PENDING" ∧
        nb.startAt = seg.startAt ∧ nb.endAt = seg.endAt) ∧
      (processSegment db fromAddr body svcGuess meta seg).2 = db.nextBookingId) ∧
    (c ∈ (smsForward db now o p).2.bookings ∧
      DBwf (smsForward db now o p).2 ∧
      ∃ msg : Message, (smsForward db now o p).2.messages = msg :: db.messages ∧
        msg.bookingId ≠ some c.id) := by
  have hguard : ¬(p.fromAddr = "" ∨ p.body = "") := by
    rintro (h | h)
    · exact hf h
    · exact hb h
  constructor
  · have hcb : (c.status == "CANCELED") = true := by rw [hc]; rfl
    obtain ⟨h1, h2, h3, h4⟩ := processSegmentCreate_props db fromAddr body meta
      (if svcGuess ≠ "Unspecified" then svcGuess else jsOrS seg.serviceHint "Unspecified")
      seg (petCandidatesOf body meta) c hwf hcm
    unfold processSegment
    rw [hFind]
    dsimp only
    rw [if_pos hcb]
    exact ⟨h1, h4, h3⟩
  · exact smsForward_canceled db now o p c hwf hcm hc hguard ht hnew

/-- C3 witness: the example CANCELED booking with a nearby segment and the
single-segment candidate payload. -/
theorem claim3_witness :
    (exampleCanceledBooking ∈ (processSegment exampleCanceledDB examplePhone "board 11/7"
        "Overnight" (extractRoverMeta "board 11/7") exampleSeg).1.bookings ∧
      (∃ nb ∈ (processSegment exampleCanceledDB examplePhone "board 11/7"
          "Overnight" (extractRoverMeta "board 11/7") exampleSeg).1.bookings,
        nb.id = exampleCanceledDB.nextBookingId ∧ nb.status = "PENDING" ∧
        nb.startAt = exampleSeg.startAt ∧ nb.endAt = exampleSeg.endAt) ∧
      (processSegment exampleCanceledDB examplePhone "board 11/7"
        "Overnight" (extractRoverMeta "board 11/7") exampleSeg).2 =
          exampleCanceledDB.nextBookingId) ∧
    (exampleCanceledBooking ∈
        (smsForward exampleCanceledDB refNov1 none oneSegPayload).2.bookings ∧
      DBwf (smsForward exampleCanceledDB refNov1 none oneSegPayload).2 ∧
      ∃ msg : Message,
        (smsForward exampleCanceledDB refNov1 none oneSegPayload).2.messages =
          msg :: exampleCanceledDB.messages ∧
        msg.bookingId ≠ some exampleCanceledBooking.id) :=
  claim3_canceled_never_revived exampleCanceledDB examplePhone "board 11/7" "Overnight"
    (extractRoverMeta "board 11/7") exampleSeg refNov1 none oneSegPayload
    exampleCanceledBooking (by decide) (by decide) rfl (by decide) (by decide) (by decide)
    (by decide) rfl

theorem lookupBooking_updateMessageDB (db : DB) (mid : Nat) (f : Message → Message)
    (bid : Nat) : lookupBooking (updateMessageDB db mid f) bid = lookupBooking db bid := rfl

/-- The reparse pass never touches a booking that is no longer PENDING. -/
theorem reparseMessageStep_nonpending (db : DB) (nowMs : Int) (m : Message)
    (bid : Nat) (rb : Booking)
    (hm : m.bookingId = some bid)
    (hlook : lookupBooking db bid = some rb)
    (hst : rb.status ≠ "PENDING") :
    (reparseMessageStep db nowMs m).1.bookings = db.bookings ∧
    (reparseMessageStep db nowMs m).2 = false := by
  unfold reparseMessageStep
  dsimp only
  rw [hm]
  cases hr : pickDateRange m.body (if m.createdAt ≠ 0 then m.createdAt else nowMs) with
  | none =>
    refine ⟨?_, ?_⟩ <;> split <;> rfl
  | some val =>
    obtain ⟨seg, txt⟩ := val
    rw [if_pos (by simp)]
    dsimp only
    rw [lookupBooking_updateMessageDB, hlook]
    dsimp only
    rw [if_neg (fun h => hst (by simpa using h))]
    exact ⟨rfl, rfl⟩

/-- C2 (amended): the webhook's booking patch fills `serviceType` only when it
was missing (empty or Unspecified), preserves id and status, leaves the dates
unchanged when both differ from the segment by at most 60 seconds, but
refreshes BOTH dates whenever either differs by more than 60 seconds
REGARDLESS of the booking's status — a CONFIRMED booking's dates are
overwritten too.  The status-guarded date refresh described by the spec exists
only in the `reparseAll` maintenance pass, which never touches a booking that
is no longer PENDING. -/
theorem claim2_patch_semantics
    (b : Booking) (inferredSvc : String) (seg : Seg)
    (db : DB) (nowMs : Int) (m : Message) (bid : Nat) (rb : Booking)
    (hm : m.bookingId = some bid)
    (hlook : lookupBooking db bid = some rb)
    (hst : rb.status ≠ "PENDING") :
    ((webhookPatchBooking b inferredSvc seg).status = b.status ∧
     (webhookPatchBooking b inferredSvc seg).id = b.id ∧
     (jsAbs (b.startAt - seg.startAt) ≤ 60000 → jsAbs (b.endAt - seg.endAt) ≤ 60000 →
       (webhookPatchBooking b inferredSvc seg).startAt = b.startAt ∧
       (webhookPatchBooking b inferredSvc seg).endAt = b.endAt) ∧
     (60000 < jsAbs (b.startAt - seg.startAt) ∨ 60000 < jsAbs (b.endAt - seg.endAt) →
       (webhookPatchBooking b inferredSvc seg).startAt = seg.startAt ∧
       (webhookPatchBooking b inferredSvc seg).endAt = seg.endAt) ∧
     (b.serviceType ≠ "Unspecified" → b.serviceType ≠ "" →
       (webhookPatchBooking b inferredSvc seg).serviceType = b.serviceType)) ∧
    ((reparseMessageStep db nowMs m).1.bookings = db.bookings ∧
     (reparseMessageStep db nowMs m).2 = false) := by
  refine ⟨⟨rfl, rfl, ?_, ?_, ?_⟩, reparseMessageStep_nonpending db nowMs m bid rb hm hlook hst⟩
  · intro hs he
    have hcond : (decide (60 * 1000 < jsAbs (b.startAt - seg.startAt)) ||
        decide (60 * 1000 < jsAbs (b.endAt - seg.endAt))) = false := by
      simp only [Bool.or_eq_false_iff, decide_eq_false_iff_not]
      constructor <;> omega
    unfold webhookPatchBooking
    dsimp only
    rw [hcond]
    exact ⟨rfl, rfl⟩
  · intro h
    have hcond : (decide (60 * 1000 < jsAbs (b.startAt - seg.startAt)) ||
        decide (60 * 1000 < jsAbs (b.endAt - seg.endAt))) = true := by
      simp only [Bool.or_eq_true, decide_eq_true_eq]
      omega
    unfold webhookPatchBooking
    dsimp only
    rw [hcond]
    exact ⟨rfl, rfl⟩
  · intro h1 h2
    have hsvc : (jsOrS b.serviceType "Unspecified" == "Unspecified") = false := by
      unfold jsOrS
      rw [if_neg h2]
      exact beq_eq_false_iff_ne.mpr h1
    unfold webhookPatchBooking
    dsimp only
    rw [hsvc, Bool.false_and]
    rfl

/-- C2 witness: the CONFIRMED example booking with the nearby segment, and the
reparse step over a message linked to it. -/
theorem claim2_witness :
    (((webhookPatchBooking exampleConfirmedBooking "Daycare" exampleSeg).status =
        exampleConfirmedBooking.status ∧
      (webhookPatchBooking exampleConfirmedBooking "Daycare" exampleSeg).id =
        exampleConfirmedBooking.id ∧
      (jsAbs (exampleConfirmedBooking.startAt - exampleSeg.startAt) ≤ 60000 →
        jsAbs (exampleConfirmedBooking.endAt - exampleSeg.endAt) ≤ 60000 →
        (webhookPatchBooking exampleConfirmedBooking "Daycare" exampleSeg).startAt =
          exampleConfirmedBooking.startAt ∧
        (webhookPatchBooking exampleConfirmedBooking "Daycare" exampleSeg).endAt =
          exampleConfirmedBooking.endAt) ∧
      (60000 < jsAbs (exampleConfirmedBooking.startAt - exampleSeg.startAt) ∨
        60000 < jsAbs (exampleConfirmedBooking.endAt - exampleSeg.endAt) →
        (webhookPatchBooking exampleConfirmedBooking "Daycare" exampleSeg).startAt =
          exampleSeg.startAt ∧
        (webhookPatchBooking exampleConfirmedBooking "Daycare" exampleSeg).endAt =
          exampleSeg.endAt) ∧
      (exampleConfirmedBooking.serviceType ≠ "Unspecified" →
        exampleConfirmedBooking.serviceType ≠ "" →
        (webhookPatchBooking exampleConfirmedBooking "Daycare" exampleSeg).serviceType =
          exampleConfirmedBooking.serviceType)) ∧
     ((reparseMessageStep exampleConfirmedDB refNov1 exampleMessage).1.bookings =
        exampleConfirmedDB.bookings ∧
      (reparseMessageStep exampleConfirmedDB refNov1 exampleMessage).2 = false)) :=
  claim2_patch_semantics exampleConfirmedBooking "Daycare" exampleSeg
    exampleConfirmedDB refNov1 exampleMessage 0 exampleConfirmedBooking
    rfl rfl (by decide)

/-- C2 counterexample to the claim as stated: the candidate payload
"board 11/7" matched against the stored CONFIRMED booking (Nov 8 to Nov 10)
moves BOTH of the CONFIRMED booking's dates to the new segment (Nov 7): the
webhook's date refresh has no status guard. -/
theorem claim2_counterexample :
    (smsForward exampleConfirmedDB refNov1 none oneSegPayload).2.bookings.map
      (fun b => (b.status, b.startAt, b.endAt)) =
      [("CONFIRMED", jsDateMs 2025 10 7 17 0, jsDateMs 2025 10 7 17 0)] ∧
    exampleConfirmedBooking.startAt = jsDateMs 2025 10 8 17 0 ∧
    exampleConfirmedBooking.endAt = jsDateMs 2025 10 10 17 0 :=
  ⟨rfl, rfl, rfl⟩

/-- C4: the date token "12/24" with reference instant 2025-01-05 resolves to
December 24, 2025 (not 2024); and in general `yearInfer` agrees with the
spec's rule — the reference year, bumped to the following year exactly when
the date at the reference year falls more than 7 days before the reference
instant. -/
theorem claim4_year_inference :
    (parseSegments "12/24" refJan5).map
      (fun s => (getFullYear s.startAt, getMonth0 s.startAt, getDate s.startAt)) =
      [(2025, 11, 24)] ∧
    refJan5 = jsDateMs 2025 0 5 0 0 ∧
    (∀ refMs mm dd : Int, yearInfer refMs mm dd = specYearAssign refMs mm dd) := by
  refine ⟨rfl, rfl, ?_⟩
  intro refMs mm dd
  unfold yearInfer specYearAssign
  dsimp only
  by_cases h : jsDateMs (getFullYear refMs) mm dd 0 0 < refMs - 7 * 24 * 60 * 60 * 1000
  · rw [if_pos h, if_pos (by omega)]
  · rw [if_neg h, if_neg (by omega)]

/-- `daysFromCivil` (hence `MakeDay`) is linear in the day argument: an
out-of-range day rolls over by exact day counts. -/
theorem jsMakeDay_day_linear (y m d : Int) :
    jsMakeDay y m d = jsMakeDay y m 1 + (d - 1) := by
  unfold jsMakeDay daysFromCivil
  dsimp only
  by_cases h : m.emod 12 + 1 ≤ 2
  · simp only [if_pos h]; ring
  · simp only [if_neg h]; ring

/-- Day-of-week of a local midnight instant, in terms of the month's day 1. -/
theorem getDay_jsDateMs00 (y m d : Int) :
    getDay (jsDateMs y m d 0 0) = (jsMakeDay y m 1 + d + 3).emod 7 := by
  unfold getDay jsDateMs epochDay msPerDay
  rw [jsMakeDay_day_linear]
  generalize jsMakeDay y m 1 = F
  rw [show (F + (d - 1)) * 86400000 + 0 * 3600000 + 0 * 60000 =
    (F + (d - 1)) * 86400000 from by ring]
  rw [Int.mul_fdiv_cancel _ (by norm_num)]
  congr 1
  ring

theorem getDay_nthWeekdayOfMonth (y m wd n : Int) (h0 : 0 ≤ wd) (h7 : wd < 7) :
    getDay (nthWeekdayOfMonth y m wd n) = wd := by
  unfold nthWeekdayOfMonth
  dsimp only
  rw [getDay_jsDateMs00, getDay_jsDateMs00]
  generalize jsMakeDay y m 1 = F
  simp only [show ∀ a : Int, a.emod 7 = a % 7 from fun a => rfl]
  omega

/-- C5: with reference instant 2025-11-01, "Thanksgiving week" resolves to
November 27, 2025; the anchor is exactly the nth-weekday computation (4th
Thursday of November 2025), the holiday stage prefers this year's occurrence
(bumping a year only when it is more than 7 days past), and
`nthWeekdayOfMonth` always lands on the requested weekday. -/
theorem claim5_thanksgiving_anchor :
    (parseSegments "Thanksgiving week" refNov1).map
      (fun s => (getFullYear s.startAt, getMonth0 s.startAt, getDate s.startAt)) =
      [(2025, 10, 27)] ∧
    nthWeekdayOfMonth 2025 10 4 4 = jsDateMs 2025 10 27 0 0 ∧
    holidayStageDay refNov1 "thanksgiving" = some (nthWeekdayOfMonth 2025 10 4 4) ∧
    (∀ y m wd n : Int, 0 ≤ wd → wd < 7 → getDay (nthWeekdayOfMonth y m wd n) = wd) :=
  ⟨rfl, rfl, rfl, fun y m wd n h0 h7 => getDay_nthWeekdayOfMonth y m wd n h0 h7⟩

/-- C5 witness: the weekday law of the anchor computation instantiated at the
4th Thursday of November 2025 — the computed Thanksgiving lands on a Thursday. -/
theorem claim5_witness :
    0 ≤ (4 : Int) ∧ (4 : Int) < 7 ∧ getDay (nthWeekdayOfMonth 2025 10 4 4) = 4 :=
  ⟨by decide, by decide,
    claim5_thanksgiving_anchor.2.2.2 2025 10 4 4 (by decide) (by decide)⟩

/-- C6 (amended): "11/20 to 11/23" yields a single ordered segment
(startAt < endAt); the rollover fix leaves an already-ordered range alone and
repairs a reversed range only when the end precedes the start by at most one
day — it adds exactly one day, so a reversal of more than one day (such as
reversed same-month shorthand several days apart) still yields
startAt > endAt. -/
theorem claim6_range_ordering :
    (parseSegments "11/20 to 11/23" refNov1).map (fun s => (s.startAt, s.endAt)) =
      [(jsDateMs 2025 10 20 17 0, jsDateMs 2025 10 23 17 0)] ∧
    jsDateMs 2025 10 20 17 0 < jsDateMs 2025 10 23 17 0 ∧
    (∀ s e : Int, s ≤ e → rolloverFix s e = e) ∧
    (∀ s e : Int, s - e ≤ msPerDay → s ≤ rolloverFix s e) ∧
    (∀ s e : Int, msPerDay < s - e → rolloverFix s e < s) := by
  refine ⟨rfl, by decide, ?_, ?_, ?_⟩ <;>
    intro s e h <;> have hms : msPerDay = 86400000 := rfl <;>
    unfold rolloverFix jsAddDays <;> split <;> omega

/-- C6 witness: the rollover laws at concrete ranges — an ordered range, a
one-day reversal, and a three-day reversal. -/
theorem claim6_witness :
    ((0 : Int) ≤ 1 ∧ rolloverFix 0 1 = 1) ∧
    (msPerDay - 0 ≤ msPerDay ∧ msPerDay ≤ rolloverFix msPerDay 0) ∧
    (msPerDay < 3 * msPerDay - 0 ∧ rolloverFix (3 * msPerDay) 0 < 3 * msPerDay) :=
  ⟨⟨by decide, claim6_range_ordering.2.2.1 0 1 (by decide)⟩,
   ⟨by decide, claim6_range_ordering.2.2.2.1 msPerDay 0 (by decide)⟩,
   ⟨by decide, claim6_range_ordering.2.2.2.2 (3 * msPerDay) 0 (by decide)⟩⟩

/-- C6 counterexample to the claim as stated: "11/23 to 11/20" (a reversal of
three days) yields a segment with endAt < startAt — the one-day rollover
correction does not restore start ≤ end. -/
theorem claim6_counterexample :
    (parseSegments "11/23 to 11/20" refNov1).map (fun s => (s.startAt, s.endAt)) =
      [(jsDateMs 2025 10 23 17 0, jsDateMs 2025 10 21 17 0)] ∧
    jsDateMs 2025 10 21 17 0 < jsDateMs 2025 10 23 17 0 :=
  ⟨rfl, by decide⟩

/-- C7 (amended): `classifyService` always returns one of the five labels
Overnight, Daycare, Drop-in, Walk, Unspecified — and it DOES still return
"Walk" for new classifications (the walk vocabulary branch is live).  Explicit
vocabulary takes precedence over duration inference: any text matching the
overnight vocabulary classifies as Overnight, in particular "overnight 11/7",
whose only extracted segment spans zero milliseconds. -/
theorem claim7_classify_labels :
    (∀ (text : String) (nowMs : Int),
      classifyService text nowMs = "Overnight" ∨ classifyService text nowMs = "Daycare" ∨
      classifyService text nowMs = "Drop-in" ∨ classifyService text nowMs = "Walk" ∨
      classifyService text nowMs = "Unspecified") ∧
    (∀ (text : String) (nowMs : Int), svcOvernightTest (lowerStr text).toList = true →
      classifyService text nowMs = "Overnight") ∧
    classifyService "overnight 11/7" refNov1 = "Overnight" ∧
    (parseSegments "overnight 11/7" refNov1).map (fun s => s.endAt - s.startAt) = [0] := by
  refine ⟨?_, ?_, rfl, rfl⟩
  · intro text nowMs
    unfold classifyService
    dsimp only
    split_ifs <;> try simp
    cases hpd : pickDateRange text nowMs with
    | some v =>
      obtain ⟨seg, txt⟩ := v
      dsimp only
      split_ifs <;> simp
    | none => simp
  · intro text nowMs h
    unfold classifyService
    dsimp only
    rw [if_pos h]

/-- C7 witness: the vocabulary-precedence law at a concrete overnight text. -/
theorem claim7_witness :
    svcOvernightTest (lowerStr "overnight stay").toList = true ∧
    classifyService "overnight stay" refNov1 = "Overnight" :=
  ⟨by decide, claim7_classify_labels.2.1 "overnight stay" refNov1 (by decide)⟩

/-- C7 counterexample to the claim as stated: a fresh classification of a walk
request returns the label "Walk". -/
theorem claim7_counterexample : classifyService "please walk my dog" refNov1 = "Walk" := rfl

/-- C8 (amended): an impossible calendar token such as "Feb 30" or "2/30" is
NOT discarded: the resolver emits a segment whose date has rolled over to the
next month (February 30, 2025 becomes March 2, 2025), because `new Date(y, m,
d)` normalizes out-of-range days linearly — `MakeDay` is linear in the day
argument.  No error is raised (the model is total by construction). -/
theorem claim8_rollover_segments :
    (parseSegments "Feb 30" refJan5).map
      (fun s => (getFullYear s.startAt, getMonth0 s.startAt, getDate s.startAt)) =
      [(2025, 2, 2)] ∧
    (parseSegments "Feb 30" refJan5).length = 1 ∧
    (∀ y m d : Int, jsMakeDay y m d = jsMakeDay y m 1 + (d - 1)) :=
  ⟨rfl, rfl, fun y m d => jsMakeDay_day_linear y m d⟩

/-- C8 counterexample to the claim as stated: "2/30" is not treated as no
match — a segment is emitted and it carries the rolled-over date
March 2, 2025. -/
theorem claim8_counterexample :
    (parseSegments "2/30" refJan5).map
      (fun s => (getFullYear s.startAt, getMonth0 s.startAt, getDate s.startAt)) =
      [(2025, 2, 2)] := rfl

theorem insertByIdx_mem (t : Tok) :
    ∀ (l : List Tok) (x : Tok), x ∈ insertByIdx t l → x = t ∨ x ∈ l
  | [], x, hx => by
    simp [insertByIdx] at hx
    exact Or.inl hx
  | u :: us, x, hx => by
    unfold insertByIdx at hx
    split at hx
    · rcases List.mem_cons.mp hx with rfl | hx2
      · exact Or.inr (List.mem_cons_self _ _)
      · rcases insertByIdx_mem t us x hx2 with h | h
        · exact Or.inl h
        · exact Or.inr (List.mem_cons_of_mem _ h)
    · rcases List.mem_cons.mp hx with rfl | hx2
      · exact Or.inl rfl
      · exact Or.inr hx2

theorem insertByIdx_sorted (t : Tok) :
    ∀ l : List Tok, List.Pairwise (fun u v : Tok => u.idx ≤ v.idx) l →
      List.Pairwise (fun u v : Tok => u.idx ≤ v.idx) (insertByIdx t l)
  | [], _ => by simp [insertByIdx]
  | u :: us, h => by
    rcases List.pairwise_cons.mp h with ⟨hhead, htail⟩
    unfold insertByIdx
    by_cases hle : u.idx ≤ t.idx
    · rw [if_pos hle]
      refine List.pairwise_cons.mpr ⟨?_, insertByIdx_sorted t us htail⟩
      intro x hx
      rcases insertByIdx_mem t us x hx with rfl | hx2
      · exact hle
      · exact hhead x hx2
    · rw [if_neg hle]
      refine List.pairwise_cons.mpr ⟨?_, h⟩
      intro x hx
      rcases List.mem_cons.mp hx with rfl | hx2
      · omega
      · exact le_trans (by omega) (hhead x hx2)

theorem sortByIdx_sorted_aux :
    ∀ (l acc : List Tok), List.Pairwise (fun u v : Tok => u.idx ≤ v.idx) acc →
      List.Pairwise (fun u v : Tok => u.idx ≤ v.idx)
        (l.foldl (fun acc t => insertByIdx t acc) acc)
  | [], _, h => h
  | t :: ts, acc, h => by
    rw [List.foldl_cons]
    exact sortByIdx_sorted_aux ts _ (insertByIdx_sorted t acc h)

/-- The stable insertion sort of `scanDateTokens` orders tokens by ascending
match index. -/
theorem sortByIdx_sorted (l : List Tok) :
    List.Pairwise (fun u v : Tok => u.idx ≤ v.idx) (sortByIdx l) :=
  sortByIdx_sorted_aux l [] List.Pairwise.nil

/-- The anchoring (first) tokens of the fallback stage's ranges form a
subsequence of the scanned token list: segments are emitted in token order. -/
theorem pairUpTokens_fst_sublist (conn : Tok → Tok → Bool) :
    ∀ toks : List Tok, ((pairUpTokens conn toks).map Prod.fst).Sublist toks
  | [] => by simp [pairUpTokens]
  | [a] => by simp [pairUpTokens]
  | a :: b :: rest => by
    unfold pairUpTokens
    by_cases hc : conn a b
    · rw [if_pos hc, List.map_cons]
      exact List.Sublist.cons₂ a
        ((pairUpTokens_fst_sublist conn rest).trans (List.sublist_cons_self b rest))
    · rw [if_neg hc, List.map_cons]
      exact List.Sublist.cons₂ a (pairUpTokens_fst_sublist conn (b :: rest))

/-- C9 (amended): the fallback stage emits its ranges in source-token order —
scanned tokens are sorted by ascending match index and the anchoring token of
each emitted range is taken from that list as a subsequence — but duplicate
identical \x7bstartAt, endAt\x7d pairs are NOT suppressed: "12/24 and 12/24"
yields the same range twice. -/
theorem claim9_order_no_dedup :
    (∀ (conn : Tok → Tok → Bool) (toks : List Tok),
      ((pairUpTokens conn toks).map Prod.fst).Sublist toks) ∧
    (∀ l : List Tok,
      List.Pairwise (fun u v : Tok => u.idx ≤ v.idx) (sortByIdx l)) ∧
    (parseSegments "12/24 and 12/24" refNov1).map (fun s => (s.startAt, s.endAt)) =
      [(jsDateMs 2025 11 24 17 0, jsDateMs 2025 11 24 17 0),
       (jsDateMs 2025 11 24 17 0, jsDateMs 2025 11 24 17 0)] :=
  ⟨pairUpTokens_fst_sublist, sortByIdx_sorted, rfl⟩

/-- C9 counterexample to the claim as stated: "12/24 and 12/24" yields two
segments with an identical \x7bstartAt, endAt\x7d pair — duplicates are not
suppressed. -/
theorem claim9_counterexample :
    ¬ ((parseSegments "12/24 and 12/24" refNov1).map
        (fun s => (s.startAt, s.endAt))).Nodup ∧
    (parseSegments "12/24 and 12/24" refNov1).length = 2 :=
  ⟨by decide, rfl⟩

/-- Without a provider message id, the EID fallback key is determined by
platform, from, timestamp and the first 120 body characters alone. -/
theorem buildEID_fallback_congr (f1 f2 : EidFields)
    (h1 : f1.providerMessageId = none) (h2 : f2.providerMessageId = none)
    (hp : f1.platform = f2.platform) (hf : f1.fromAddr = f2.fromAddr)
    (ht : f1.timestamp = f2.timestamp)
    (hb : (f1.body.getD "").take 120 = (f2.body.getD "").take 120) :
    buildEID f1 = buildEID f2 := by
  unfold buildEID
  rw [h1, h2]
  simp only [truthyS, Bool.and_false, Bool.false_eq_true, if_false]
  rw [hp, hf, ht, hb]

/-- C10: with no provider message id, `buildEID` depends only on platform,
from, timestamp and the first 120 characters of the body; consequently a
second webhook delivery agreeing with a stored one on sender, timestamp and
the first 120 body characters — even with a body differing beyond the 120th
character — computes the same EID, is reported as already processed, and
leaves the record store completely unchanged. -/
theorem claim10_eid_truncation :
    (∀ f1 f2 : EidFields,
      f1.providerMessageId = none → f2.providerMessageId = none →
      f1.platform = f2.platform → f1.fromAddr = f2.fromAddr →
      f1.timestamp = f2.timestamp →
      (f1.body.getD "").take 120 = (f2.body.getD "").take 120 →
      buildEID f1 = buildEID f2) ∧
    (∀ (db : DB) (now1 now2 : Int) (o1 o2 : OracleRes) (p1 p2 : Payload),
      p1.fromAddr ≠ "" → p1.body ≠ "" → p1.timestamp ≠ 0 →
      p2.fromAddr = p1.fromAddr → p2.timestamp = p1.timestamp → p2.body ≠ "" →
      p2.body.take 120 = p1.body.take 120 →
      findMessageByEid db (payloadEid p1) = none →
      (smsForward (smsForward db now1 o1 p1).2 now2 o2 p2).2 =
        (smsForward db now1 o1 p1).2 ∧
      (∃ bid, (smsForward (smsForward db now1 o1 p1).2 now2 o2 p2).1 =
        SmsResp.deduped bid (payloadEid p2))) := by
  refine ⟨fun f1 f2 h1 h2 hp hf ht hb =>
    buildEID_fallback_congr f1 f2 h1 h2 hp hf ht hb, ?_⟩
  intro db now1 now2 o1 o2 p1 p2 hf1 hb1 ht1 hf2 ht2 hb2 hb120 hnew
  have hguard1 : ¬(p1.fromAddr = "" ∨ p1.body = "") := by
    rintro (h | h)
    · exact hf1 h
    · exact hb1 h
  have hguard2 : ¬(p2.fromAddr = "" ∨ p2.body = "") := by
    rintro (h | h)
    · exact hf1 (hf2 ▸ h)
    · exact hb2 h
  have ht2' : p2.timestamp ≠ 0 := by rw [ht2]; exact ht1
  obtain ⟨msg, hmsgs, heid⟩ := smsForward_fresh db now1 o1 p1 hguard1 ht1 hnew
  have heq : payloadEid p2 = payloadEid p1 :=
    buildEID_fallback_congr _ _ rfl rfl rfl (by rw [hf2]) (by rw [ht2])
      (by simpa using hb120)
  have hfind : findMessageByEid (smsForward db now1 o1 p1).2 (payloadEid p2) = some msg :=
    findMessageByEid_of_head _ msg db.messages _ hmsgs (heid.trans heq.symm)
  have hded := smsForward_dedup (smsForward db now1 o1 p1).2 now2 o2 p2 msg
    hguard2 ht2' hfind
  exact ⟨by rw [hded], msg.bookingId, by rw [hded]⟩

/-- C10 witness: two payloads whose 121-character bodies agree on the first
120 characters and differ at the last one, delivered into an empty store. -/
theorem claim10_witness :
    longPayloadB.body.take 120 = longPayloadA.body.take 120 ∧
    longPayloadA.body ≠ longPayloadB.body ∧
    (smsForward (smsForward emptyDB refNov1 none longPayloadA).2 (refNov1 + 1) none
        longPayloadB).2 = (smsForward emptyDB refNov1 none longPayloadA).2 ∧
    (∃ bid, (smsForward (smsForward emptyDB refNov1 none longPayloadA).2 (refNov1 + 1)
        none longPayloadB).1 = SmsResp.deduped bid (payloadEid longPayloadB)) := by
  refine ⟨by decide, by decide, ?_⟩
  exact claim10_eid_truncation.2 emptyDB refNov1 (refNov1 + 1) none none
    longPayloadA longPayloadB (by decide) (by decide) (by decide) rfl rfl
    (by decide) (by decide) rfl
